import Mathlib

/-!
Verification development for the lab-ai repository.

This file gives a shallow embedding, in Lean 4, of the parts of the
repository that the specification talks about:

* `QueryCache` (src/api/database.py): a bounded, TTL-based in-memory
  cache for query results, with hit/miss/total counters.
* `validate_sql` and the response parser (src/api/sql_generator.py).
* `process_table_schema_with_examples` (src/api/schema_processor.py).

Python strings are modelled as Lean `String` / `List Char`; Python
`dict`s (which preserve insertion order) are modelled as association
lists with distinct keys; wall-clock times (`time.time()`) are passed
explicitly as natural numbers and compared with integer arithmetic;
fallible operations (Python code that can raise) return `Option`.
-/

/-! ## Basic character and string utilities (ASCII, as used by the code) -/

/-- ASCII whitespace recognised by Python `str.strip`, `str.split` and the
regex class `\s` (space, tab, newline, carriage return, vertical tab, form feed). -/
def isPySpace (c : Char) : Bool :=
  c = ' ' || c = '\t' || c = '\n' || c = '\r' || c = Char.ofNat 11 || c = Char.ofNat 12

/-- Python `str.upper` on a single ASCII character. -/
def pyUpperChar (c : Char) : Char := c.toUpper

/-- Python `str.lower` on a single ASCII character. -/
def pyLowerChar (c : Char) : Char := c.toLower

/-- Python `str.upper`. -/
def pyUpper (s : String) : String := String.mk (s.data.map pyUpperChar)

/-- Python `str.lower`. -/
def pyLower (s : String) : String := String.mk (s.data.map pyLowerChar)

/-- `isPrefixL pat s` : `pat` is a (character-exact) prefix of `s`. -/
def isPrefixL : List Char → List Char → Bool
  | [], _ => true
  | _ :: _, [] => false
  | a :: as, b :: bs => a = b && isPrefixL as bs

/-- `isPrefixCIL pat s` : `pat` is a case-insensitive (ASCII) prefix of `s`. -/
def isPrefixCIL : List Char → List Char → Bool
  | [], _ => true
  | _ :: _, [] => false
  | a :: as, b :: bs => a.toUpper = b.toUpper && isPrefixCIL as bs

/-- `containsL pat s` : `pat` occurs as a contiguous substring of `s`
(Python `pat in s`). -/
def containsL (pat : List Char) : List Char → Bool
  | [] => pat.isEmpty
  | c :: cs => isPrefixL pat (c :: cs) || containsL pat cs

/-- `containsCIL pat s` : case-insensitive substring occurrence. -/
def containsCIL (pat : List Char) : List Char → Bool
  | [] => pat.isEmpty
  | c :: cs => isPrefixCIL pat (c :: cs) || containsCIL pat cs

/-- Python `pat in s` on strings. -/
def containsSub (s pat : String) : Bool := containsL pat.data s.data

/-- Python `str.strip()` (both ends, ASCII whitespace) on a character list. -/
def stripChars (cs : List Char) : List Char :=
  ((cs.dropWhile isPySpace).reverse.dropWhile isPySpace).reverse

/-- Python `str.strip()`. -/
def pyStrip (s : String) : String := String.mk (stripChars s.data)

/-- `startsWithL s pat` : Python `s.startswith(pat)`. -/
def startsWithL (s pat : String) : Bool := isPrefixL pat.data s.data

/-- Python `'sep'.join(parts)`. -/
def joinSep (sep : String) : List String → String
  | [] => ""
  | [x] => x
  | x :: y :: rest => x ++ sep ++ joinSep sep (y :: rest)

/-- Python `s.split(sep)` for a single-character separator `sep`
(empty parts are preserved, like Python `str.split(',')`). -/
def splitOnChar (sep : Char) : List Char → List (List Char)
  | [] => [[]]
  | c :: cs =>
    if c = sep then [] :: splitOnChar sep cs
    else
      match splitOnChar sep cs with
      | [] => [[c]]
      | p :: ps => (c :: p) :: ps

/-- Python `str.split()` with no argument: split on runs of whitespace,
dropping empty pieces. -/
def pySplitWs : List Char → List (List Char)
  | [] => []
  | c :: cs =>
    if isPySpace c then pySplitWs cs
    else
      match pySplitWs cs with
      | [] => [[c]]
      | p :: ps =>
        match cs with
        | [] => [[c]]
        | d :: _ => if isPySpace d then [c] :: p :: ps else (c :: p) :: ps

/-- The count of occurrences of a character (Python `s.count(ch)` for a
single character). -/
def countChar (ch : Char) (cs : List Char) : Nat :=
  (cs.filter (fun c => c = ch)).length

/-! ## QueryCache (src/api/database.py, class QueryCache)

The cached payloads (`DatabaseExecutionResult` values) are opaque to the
cache, so the cache is parametrised by the payload type `α`.
`_generate_key` computes an MD5 digest; it is modelled as an explicit
key-generation function argument `gk` (queries plus optional parameter
lists to keys). -/

/-- Python `dict` lookup (`d[k]` guarded by `k in d`), on an
insertion-ordered association list. -/
def dictLookup : List (String × α) → String → Option α
  | [], _ => none
  | p :: rest, k => if p.1 = k then some p.2 else dictLookup rest k

/-- Python `del d[k]` on an insertion-ordered association list. -/
def dictErase : List (String × α) → String → List (String × α)
  | [], _ => []
  | p :: rest, k => if p.1 = k then dictErase rest k else p :: dictErase rest k

/-- Python `d[k] = v`: update in place if the key is present, otherwise
append at the end (insertion order). -/
def dictSet : List (String × α) → String → α → List (String × α)
  | [], k, v => [(k, v)]
  | p :: rest, k, v => if p.1 = k then (k, v) :: rest else p :: dictSet rest k v

/-- Helper for `argminTS`: left fold keeping the first strictly-smallest
timestamp, as Python `min(..., key=...)` does. -/
def argminFold (best : String × Nat) : List (String × Nat) → String × Nat
  | [] => best
  | q :: rest => argminFold (if q.2 < best.2 then q else best) rest

/-- `min(self._timestamps.keys(), key=lambda k: self._timestamps[k])`:
the first entry with minimal timestamp, `none` on an empty dict
(where Python `min` raises `ValueError`). -/
def argminTS : List (String × Nat) → Option (String × Nat)
  | [] => none
  | p :: rest => some (argminFold p rest)

/-- State of `QueryCache` (src/api/database.py:284-299). -/
structure QueryCache (α : Type) where
  max_size : Nat
  ttl_seconds : Nat
  cache : List (String × α)
  timestamps : List (String × Nat)
  hits : Nat
  misses : Nat
  total_requests : Nat
deriving Repr, DecidableEq

namespace QueryCache

/-- `QueryCache.__init__`. -/
def init (α : Type) (max_size ttl_seconds : Nat) : QueryCache α :=
  { max_size := max_size, ttl_seconds := ttl_seconds, cache := [], timestamps := [],
    hits := 0, misses := 0, total_requests := 0 }

/-- `QueryCache.get` (src/api/database.py:301-317).  `now` is the value of
`time.time()` at the call; returns the cached payload (if present and
fresh) together with the updated cache state. -/
def get (gk : String → Option (List String) → String) (c : QueryCache α)
    (now : Nat) (sql_query : String) (params : Option (List String)) :
    Option α × QueryCache α :=
  match dictLookup c.cache (gk sql_query params) with
  | some r =>
    if (now : Int) - (((dictLookup c.timestamps (gk sql_query params)).getD 0 : Nat) : Int) <
        (c.ttl_seconds : Int) then
      (some r, { c with total_requests := c.total_requests + 1, hits := c.hits + 1 })
    else
      (none, { c with total_requests := c.total_requests + 1, misses := c.misses + 1,
                      cache := dictErase c.cache (gk sql_query params),
                      timestamps := dictErase c.timestamps (gk sql_query params) })
  | none => (none, { c with total_requests := c.total_requests + 1, misses := c.misses + 1 })

/-- `QueryCache.set` (src/api/database.py:319-331).  Returns `none` when
Python would raise (`min` of an empty timestamp dict while evicting). -/
def set (gk : String → Option (List String) → String) (c : QueryCache α)
    (now : Nat) (sql_query : String) (result : α) (params : Option (List String)) :
    Option (QueryCache α) :=
  (if c.max_size ≤ c.cache.length then
      match argminTS c.timestamps with
      | some oldest =>
        some { c with cache := dictErase c.cache oldest.1,
                      timestamps := dictErase c.timestamps oldest.1 }
      | none => none
    else some c).map fun c2 =>
    { c2 with cache := dictSet c2.cache (gk sql_query params) result,
              timestamps := dictSet c2.timestamps (gk sql_query params) now }

/-- `QueryCache.clear` (src/api/database.py:333-337): clears the two dicts,
leaves all counters untouched. -/
def clear (c : QueryCache α) : QueryCache α :=
  { c with cache := [], timestamps := [] }

/-- States reachable from a fresh cache by any sequence of `get`, `set`
and `clear` calls (with arbitrary call times, queries and parameters). -/
inductive Reach (gk : String → Option (List String) → String) : QueryCache α → Prop
  | init (m t : Nat) : Reach gk (QueryCache.init α m t)
  | get (c : QueryCache α) (now : Nat) (q : String) (p : Option (List String)) :
      Reach gk c → Reach gk (QueryCache.get gk c now q p).2
  | set (c c2 : QueryCache α) (now : Nat) (q : String) (r : α) (p : Option (List String)) :
      Reach gk c → QueryCache.set gk c now q r p = some c2 → Reach gk c2
  | clear (c : QueryCache α) : Reach gk c → Reach gk c.clear

/-- Folding `set` over a list of (query, time) pairs, all with the same
payload and no bound parameters. -/
def insertSeq (gk : String → Option (List String) → String) (r : α) :
    List (String × Nat) → QueryCache α → Option (QueryCache α)
  | [], c => some c
  | x :: rest, c =>
    match QueryCache.set gk c x.2 x.1 r none with
    | some c2 => insertSeq gk r rest c2
    | none => none

/-- Well-formedness: the two dicts hold exactly the same keys in the same
insertion order, without duplicates.  Python maintains this because
`_cache` and `_timestamps` are always updated in lockstep. -/
def WF (c : QueryCache α) : Prop :=
  c.cache.map Prod.fst = c.timestamps.map Prod.fst ∧ (c.cache.map Prod.fst).Nodup

end QueryCache

/-! ### Association-list lemmas -/

theorem dictLookup_dictSet_self (l : List (String × α)) (k : String) (v : α) :
    dictLookup (dictSet l k v) k = some v := by
  induction l with
  | nil => simp [dictSet, dictLookup]
  | cons p rest ih =>
    by_cases h : p.1 = k
    · simp [dictSet, dictLookup, h]
    · simp [dictSet, dictLookup, h, ih]

theorem dictErase_eq_self_of_not_mem (l : List (String × α)) (k : String)
    (h : k ∉ l.map Prod.fst) : dictErase l k = l := by
  induction l with
  | nil => rfl
  | cons p rest ih =>
    simp only [List.map_cons, List.mem_cons] at h
    push_neg at h
    have hne : ¬ p.1 = k := fun hh => h.1 hh.symm
    simp [dictErase, hne, ih h.2]

theorem dictErase_keys (l : List (String × α)) (k : String) :
    (dictErase l k).map Prod.fst = (l.map Prod.fst).filter (fun x => x ≠ k) := by
  induction l with
  | nil => rfl
  | cons p rest ih =>
    by_cases h : p.1 = k <;> simp [dictErase, h, ih]

theorem dictSet_keys (l : List (String × α)) (k : String) (v : α) :
    (dictSet l k v).map Prod.fst =
      if k ∈ l.map Prod.fst then l.map Prod.fst else l.map Prod.fst ++ [k] := by
  induction l with
  | nil => simp [dictSet]
  | cons p rest ih =>
    by_cases h : p.1 = k
    · simp [dictSet, h]
    · have hne : ¬ k = p.1 := fun hh => h hh.symm
      by_cases hm : k ∈ rest.map Prod.fst <;> simp [dictSet, h, ih, hm, hne]

theorem dictSet_eq_append_of_not_mem (l : List (String × α)) (k : String) (v : α)
    (h : k ∉ l.map Prod.fst) : dictSet l k v = l ++ [(k, v)] := by
  induction l with
  | nil => rfl
  | cons p rest ih =>
    simp only [List.map_cons, List.mem_cons] at h
    push_neg at h
    have hne : ¬ p.1 = k := fun hh => h.1 hh.symm
    simp [dictSet, hne, ih h.2]

theorem dictErase_length_of_mem (l : List (String × α)) (k : String)
    (hnd : (l.map Prod.fst).Nodup) (hm : k ∈ l.map Prod.fst) :
    (dictErase l k).length + 1 = l.length := by
  induction l with
  | nil => simp at hm
  | cons p rest ih =>
    simp only [List.map_cons, List.nodup_cons] at hnd
    simp only [List.map_cons, List.mem_cons] at hm
    by_cases h : p.1 = k
    · have hnot : k ∉ rest.map Prod.fst := h ▸ hnd.1
      simp [dictErase, h, dictErase_eq_self_of_not_mem rest k hnot]
    · have hm2 : k ∈ rest.map Prod.fst := hm.resolve_left fun hh => h hh.symm
      simp [dictErase, h, ← ih hnd.2 hm2]

theorem dictSet_length (l : List (String × α)) (k : String) (v : α) :
    (dictSet l k v).length =
      if k ∈ l.map Prod.fst then l.length else l.length + 1 := by
  induction l with
  | nil => simp [dictSet]
  | cons p rest ih =>
    by_cases h : p.1 = k
    · simp [dictSet, h]
    · have hne : ¬ k = p.1 := fun hh => h hh.symm
      by_cases hm : k ∈ rest.map Prod.fst <;> simp [dictSet, h, ih, hm, hne]

/-! ### argmin lemmas -/

theorem argminFold_eq_or_mem (l : List (String × Nat)) :
    ∀ b, argminFold b l = b ∨ argminFold b l ∈ l := by
  induction l with
  | nil => intro b; left; rfl
  | cons q rest ih =>
    intro b
    by_cases h : q.2 < b.2
    · simp only [argminFold, if_pos h]
      rcases ih q with h1 | h1
      · right; rw [h1]; exact List.mem_cons_self q rest
      · right; exact List.mem_cons_of_mem q h1
    · simp only [argminFold, if_neg h]
      rcases ih b with h1 | h1
      · left; exact h1
      · right; exact List.mem_cons_of_mem q h1

theorem argminTS_mem (l : List (String × Nat)) (p : String × Nat)
    (h : argminTS l = some p) : p ∈ l := by
  cases l with
  | nil => simp [argminTS] at h
  | cons q rest =>
    simp only [argminTS, Option.some.injEq] at h
    rcases argminFold_eq_or_mem rest q with h1 | h1
    · rw [← h, h1]; exact List.mem_cons_self q rest
    · rw [← h]; exact List.mem_cons_of_mem q h1

theorem argminFold_le (l : List (String × Nat)) :
    ∀ b, (argminFold b l).2 ≤ b.2 ∧ ∀ q ∈ l, (argminFold b l).2 ≤ q.2 := by
  induction l with
  | nil => intro b; exact ⟨le_refl _, by simp⟩
  | cons q rest ih =>
    intro b
    by_cases h : q.2 < b.2
    · have hq := ih q
      simp only [argminFold, if_pos h]
      refine ⟨le_trans hq.1 (le_of_lt h), ?_⟩
      intro x hx
      rcases List.mem_cons.1 hx with h1 | h1
      · rw [h1]; exact hq.1
      · exact hq.2 x h1
    · have hb := ih b
      simp only [argminFold, if_neg h]
      refine ⟨hb.1, ?_⟩
      intro x hx
      rcases List.mem_cons.1 hx with h1 | h1
      · rw [h1]
        have hle : b.2 ≤ q.2 := by omega
        exact le_trans hb.1 hle
      · exact hb.2 x h1

theorem argminTS_min (l : List (String × Nat)) (p : String × Nat)
    (h : argminTS l = some p) : ∀ q ∈ l, p.2 ≤ q.2 := by
  cases l with
  | nil => simp [argminTS] at h
  | cons b rest =>
    simp only [argminTS, Option.some.injEq] at h
    intro q hq
    rcases List.mem_cons.1 hq with h1 | h1
    · rw [← h, h1]; exact (argminFold_le rest b).1
    · rw [← h]; exact (argminFold_le rest b).2 q h1

theorem argminFold_keep (l : List (String × Nat)) (b : String × Nat)
    (h : ∀ q ∈ l, ¬ q.2 < b.2) : argminFold b l = b := by
  induction l with
  | nil => rfl
  | cons q rest ih =>
    have h1 : ¬ q.2 < b.2 := h q (List.mem_cons_self q rest)
    simp only [argminFold, if_neg h1]
    exact ih fun x hx => h x (List.mem_cons_of_mem q hx)

theorem argminTS_first (k : String) (t : Nat) (rest : List (String × Nat))
    (h : ∀ q ∈ rest, ¬ q.2 < t) : argminTS ((k, t) :: rest) = some (k, t) := by
  simp [argminTS, argminFold_keep rest (k, t) h]

/-! ### QueryCache behaviour lemmas -/

theorem dictErase_length_le (l : List (String × α)) (k : String) :
    (dictErase l k).length ≤ l.length := by
  induction l with
  | nil => simp [dictErase]
  | cons p rest ih =>
    by_cases h : p.1 = k <;> simp [dictErase, h] <;> omega

namespace QueryCache

theorem get_counters (gk : String → Option (List String) → String)
    (c : QueryCache α) (now : Nat) (q : String) (p : Option (List String)) :
    (get gk c now q p).2.total_requests = c.total_requests + 1 ∧
    (((get gk c now q p).2.hits = c.hits + 1 ∧ (get gk c now q p).2.misses = c.misses) ∨
     ((get gk c now q p).2.hits = c.hits ∧ (get gk c now q p).2.misses = c.misses + 1)) := by
  unfold get
  cases hl : dictLookup c.cache (gk q p) with
  | none => simp [hl]
  | some r => simp only [hl]; split <;> simp

theorem get_preserves (gk : String → Option (List String) → String)
    (c : QueryCache α) (now : Nat) (q : String) (p : Option (List String)) (h : WF c) :
    WF (get gk c now q p).2 ∧
    (get gk c now q p).2.cache.length ≤ c.cache.length ∧
    (get gk c now q p).2.max_size = c.max_size := by
  obtain ⟨hkeys, hnd⟩ := h
  unfold get
  cases hl : dictLookup c.cache (gk q p) with
  | none => exact ⟨⟨hkeys, hnd⟩, le_refl _, rfl⟩
  | some r =>
    dsimp only
    by_cases hfresh : (now : Int) -
        (((dictLookup c.timestamps (gk q p)).getD 0 : Nat) : Int) < (c.ttl_seconds : Int)
    · rw [if_pos hfresh]
      exact ⟨⟨hkeys, hnd⟩, le_refl _, rfl⟩
    · rw [if_neg hfresh]
      refine ⟨⟨?_, ?_⟩, ?_, rfl⟩
      · simp only [dictErase_keys, hkeys]
      · rw [dictErase_keys]
        exact hnd.filter _
      · exact dictErase_length_le c.cache (gk q p)

theorem set_eq (gk : String → Option (List String) → String)
    (c c2 : QueryCache α) (now : Nat) (q : String) (r : α) (p : Option (List String))
    (hs : set gk c now q r p = some c2) :
    (¬ c.max_size ≤ c.cache.length ∧
       c2 = { c with cache := dictSet c.cache (gk q p) r,
                     timestamps := dictSet c.timestamps (gk q p) now }) ∨
    (c.max_size ≤ c.cache.length ∧ ∃ oldest,
       argminTS c.timestamps = some oldest ∧
       c2 = { c with cache := dictSet (dictErase c.cache oldest.1) (gk q p) r,
                     timestamps := dictSet (dictErase c.timestamps oldest.1) (gk q p) now }) := by
  unfold set at hs
  by_cases hcond : c.max_size ≤ c.cache.length
  · rw [if_pos hcond] at hs
    cases ha : argminTS c.timestamps with
    | none => rw [ha] at hs; simp at hs
    | some oldest =>
      rw [ha] at hs
      simp only [Option.map_some', Option.some.injEq] at hs
      exact Or.inr ⟨hcond, oldest, rfl, hs.symm⟩
  · rw [if_neg hcond] at hs
    simp only [Option.map_some', Option.some.injEq] at hs
    exact Or.inl ⟨hcond, hs.symm⟩

theorem set_counters (gk : String → Option (List String) → String)
    (c c2 : QueryCache α) (now : Nat) (q : String) (r : α) (p : Option (List String))
    (hs : set gk c now q r p = some c2) :
    c2.hits = c.hits ∧ c2.misses = c.misses ∧ c2.total_requests = c.total_requests ∧
    c2.max_size = c.max_size ∧ c2.ttl_seconds = c.ttl_seconds := by
  rcases set_eq gk c c2 now q r p hs with ⟨_, rfl⟩ | ⟨_, oldest, _, rfl⟩ <;>
    exact ⟨rfl, rfl, rfl, rfl, rfl⟩

theorem set_lookup (gk : String → Option (List String) → String)
    (c c2 : QueryCache α) (now : Nat) (q : String) (r : α) (p : Option (List String))
    (hs : set gk c now q r p = some c2) :
    dictLookup c2.cache (gk q p) = some r ∧
    dictLookup c2.timestamps (gk q p) = some now := by
  rcases set_eq gk c c2 now q r p hs with ⟨_, rfl⟩ | ⟨_, oldest, _, rfl⟩ <;>
    exact ⟨dictLookup_dictSet_self .., dictLookup_dictSet_self ..⟩

theorem wf_dictSet_pair (c : QueryCache α) (k : String) (v : α) (t : Nat) (h : WF c) :
    WF { c with cache := dictSet c.cache k v, timestamps := dictSet c.timestamps k t } := by
  obtain ⟨hkeys, hnd⟩ := h
  constructor
  · simp only [dictSet_keys, hkeys]
  · simp only [dictSet_keys]
    by_cases hm : k ∈ c.cache.map Prod.fst
    · simpa [hm] using hnd
    · simp only [if_neg hm]
      simpa [List.nodup_append, hm] using hnd

theorem set_preserves (gk : String → Option (List String) → String)
    (c c2 : QueryCache α) (now : Nat) (q : String) (r : α) (p : Option (List String))
    (h : WF c) (hlen : c.cache.length ≤ c.max_size)
    (hs : set gk c now q r p = some c2) :
    WF c2 ∧ c2.cache.length ≤ c2.max_size := by
  obtain ⟨hkeys, hnd⟩ := h
  rcases set_eq gk c c2 now q r p hs with ⟨hcond, rfl⟩ | ⟨hcond, oldest, ha, rfl⟩
  · refine ⟨wf_dictSet_pair c (gk q p) r now ⟨hkeys, hnd⟩, ?_⟩
    simp only [dictSet_length]
    by_cases hm : gk q p ∈ c.cache.map Prod.fst <;> simp [hm] <;> omega
  · have hmem : oldest.1 ∈ c.cache.map Prod.fst := by
      rw [hkeys]
      exact List.mem_map_of_mem Prod.fst (argminTS_mem _ _ ha)
    have hwf2 : WF { c with cache := dictErase c.cache oldest.1,
                            timestamps := dictErase c.timestamps oldest.1 } := by
      constructor
      · simp only [dictErase_keys, hkeys]
      · simp only [dictErase_keys]
        exact hnd.filter _
    have hlen2 := dictErase_length_of_mem c.cache oldest.1 hnd hmem
    refine ⟨wf_dictSet_pair _ (gk q p) r now hwf2, ?_⟩
    simp only [dictSet_length]
    by_cases hm : gk q p ∈ (dictErase c.cache oldest.1).map Prod.fst <;> simp [hm] <;> omega

theorem reach_wf_bounded (gk : String → Option (List String) → String) :
    ∀ c : QueryCache α, Reach gk c → WF c ∧ c.cache.length ≤ c.max_size := by
  intro c h
  induction h with
  | init m t =>
    exact ⟨⟨rfl, List.nodup_nil⟩, by simp [init]⟩
  | get c now q p _ ih =>
    have hp := get_preserves gk c now q p ih.1
    exact ⟨hp.1, by rw [hp.2.2]; exact le_trans hp.2.1 ih.2⟩
  | set c c2 now q r p _ hs ih =>
    exact set_preserves gk c c2 now q r p ih.1 ih.2 hs
  | clear c ih =>
    exact ⟨⟨rfl, List.nodup_nil⟩, by simp [clear]⟩

theorem reach_counter_sum (gk : String → Option (List String) → String) :
    ∀ c : QueryCache α, Reach gk c → c.hits + c.misses = c.total_requests := by
  intro c h
  induction h with
  | init m t => rfl
  | get c now q p _ ih =>
    have hc := get_counters gk c now q p
    rcases hc.2 with ⟨h1, h2⟩ | ⟨h1, h2⟩ <;> rw [hc.1, h1, h2] <;> omega
  | set c c2 now q r p _ hs ih =>
    have hc := set_counters gk c c2 now q r p hs
    rw [hc.1, hc.2.1, hc.2.2.1]; exact ih
  | clear c _ ih => exact ih

end QueryCache

namespace QueryCache

theorem insertSeq_fill (gk : String → Option (List String) → String) (r : α) :
    ∀ (L : List (String × Nat)) (c : QueryCache α),
      ((c.cache.map Prod.fst) ++ (L.map fun x => gk x.1 none)).Nodup →
      c.timestamps.map Prod.fst = c.cache.map Prod.fst →
      c.cache.length + L.length ≤ c.max_size →
      insertSeq gk r L c = some { c with
        cache := c.cache ++ (L.map fun x => (gk x.1 none, r)),
        timestamps := c.timestamps ++ (L.map fun x => (gk x.1 none, x.2)) } := by
  intro L
  induction L with
  | nil => intro c _ _ _; simp [insertSeq]
  | cons x rest ih =>
    intro c hnd hkeys hlen
    simp only [List.map_cons] at hnd
    have hlt : ¬ c.max_size ≤ c.cache.length := by
      simp only [List.length_cons] at hlen; omega
    have hknotc : gk x.1 none ∉ c.cache.map Prod.fst := by
      have hd := (List.nodup_append.1 hnd).2.2
      intro hmem
      exact hd hmem (List.mem_cons_self _ _)
    have hknott : gk x.1 none ∉ c.timestamps.map Prod.fst := by
      rw [hkeys]; exact hknotc
    have hset : QueryCache.set gk c x.2 x.1 r none = some { c with
        cache := c.cache ++ [(gk x.1 none, r)],
        timestamps := c.timestamps ++ [(gk x.1 none, x.2)] } := by
      unfold QueryCache.set
      rw [if_neg hlt]
      simp only [Option.map_some']
      rw [dictSet_eq_append_of_not_mem _ _ _ hknotc,
          dictSet_eq_append_of_not_mem _ _ _ hknott]
    simp only [insertSeq]
    rw [hset]
    dsimp only
    have hrec := ih
      { c with cache := c.cache ++ [(gk x.1 none, r)],
               timestamps := c.timestamps ++ [(gk x.1 none, x.2)] }
      (by simpa [List.append_assoc] using hnd)
      (by simp [hkeys])
      (by simp only [List.length_append, List.length_cons, List.length_nil] at hlen ⊢; omega)
    rw [hrec]
    simp [List.append_assoc]

theorem insertSeq_append (gk : String → Option (List String) → String) (r : α) :
    ∀ (A B : List (String × Nat)) (c : QueryCache α),
      insertSeq gk r (A ++ B) c = (insertSeq gk r A c).bind fun c2 => insertSeq gk r B c2 := by
  intro A
  induction A with
  | nil => intro B c; simp [insertSeq]
  | cons x rest ih =>
    intro B c
    simp only [List.cons_append, insertSeq]
    cases QueryCache.set gk c x.2 x.1 r none with
    | none => simp
    | some c2 => simp [ih]

end QueryCache


namespace QueryCache

theorem insert_overflow_evicts_first (gk : String → Option (List String) → String)
    (m ttl : Nat) (r : α) (hm : 1 ≤ m) (L : List (String × Nat))
    (hlen : L.length = m + 1)
    (hnd : (L.map fun x => gk x.1 none).Nodup)
    (hinc : (L.map Prod.snd).Pairwise (· < ·)) :
    ∃ c2, insertSeq gk r L (init α m ttl) = some c2 ∧
      c2.cache.map Prod.fst = (L.map fun x => gk x.1 none).drop 1 := by
  rcases List.eq_nil_or_concat L with rfl | ⟨F, z, rfl⟩
  · simp at hlen
  · rw [List.concat_eq_append] at hlen hnd hinc ⊢
    have hF : F.length = m := by
      simp only [List.length_append, List.length_cons, List.length_nil] at hlen; omega
    cases F with
    | nil => rw [List.length_nil] at hF; omega
    | cons f0 Ftl =>
      have hFtl : Ftl.length + 1 = m := by simpa using hF
      simp only [List.map_append, List.map_cons, List.map_nil, List.cons_append] at hnd hinc
      obtain ⟨hk0notin, hndRest⟩ := List.nodup_cons.1 hnd
      have hk0Ftl : gk f0.1 none ∉ Ftl.map (fun x => gk x.1 none) :=
        fun h => hk0notin (List.mem_append_left _ h)
      have hkzFtl : gk z.1 none ∉ Ftl.map (fun x => gk x.1 none) := by
        have hdisj := (List.nodup_append.1 hndRest).2.2
        intro h
        exact hdisj h (List.mem_singleton.2 rfl)
      obtain ⟨hf0lt, _⟩ := List.pairwise_cons.1 hinc
      have hndF2 : (((init α m ttl).cache.map Prod.fst) ++
          ((f0 :: Ftl).map fun x => gk x.1 none)).Nodup := by
        simp only [init, List.map_nil, List.nil_append, List.map_cons]
        exact List.nodup_cons.2 ⟨hk0Ftl, (List.nodup_append.1 hndRest).1⟩
      have hfill := insertSeq_fill gk r (f0 :: Ftl) (init α m ttl) hndF2 rfl
        (by simp [init]; omega)
      rw [insertSeq_append gk r (f0 :: Ftl) [z] (init α m ttl), hfill]
      simp only [Option.some_bind, init, List.nil_append, List.map_cons]
      have hmapfstR : (Ftl.map fun x => (gk x.1 none, r)).map Prod.fst =
          Ftl.map fun x => gk x.1 none := by
        rw [List.map_map]; rfl
      have hmapfstT : (Ftl.map fun x => (gk x.1 none, x.2)).map Prod.fst =
          Ftl.map fun x => gk x.1 none := by
        rw [List.map_map]; rfl
      have hmin : argminTS ((gk f0.1 none, f0.2) :: Ftl.map fun x => (gk x.1 none, x.2)) =
          some (gk f0.1 none, f0.2) := by
        apply argminTS_first
        intro q hq
        obtain ⟨x, hx, rfl⟩ := List.mem_map.1 hq
        have hxz : f0.2 < x.2 :=
          hf0lt x.2 (List.mem_append_left _ (List.mem_map_of_mem Prod.snd hx))
        show ¬ x.2 < f0.2
        omega
      have herase_c : dictErase ((gk f0.1 none, r) :: Ftl.map fun x => (gk x.1 none, r))
          (gk f0.1 none) = Ftl.map fun x => (gk x.1 none, r) := by
        simp only [dictErase, if_pos]
        apply dictErase_eq_self_of_not_mem
        rw [hmapfstR]; exact hk0Ftl
      have herase_t : dictErase ((gk f0.1 none, f0.2) :: Ftl.map fun x => (gk x.1 none, x.2))
          (gk f0.1 none) = Ftl.map fun x => (gk x.1 none, x.2) := by
        simp only [dictErase, if_pos]
        apply dictErase_eq_self_of_not_mem
        rw [hmapfstT]; exact hk0Ftl
      have hsetz : QueryCache.set gk
          { max_size := m, ttl_seconds := ttl,
            cache := (gk f0.1 none, r) :: Ftl.map fun x => (gk x.1 none, r),
            timestamps := (gk f0.1 none, f0.2) :: Ftl.map fun x => (gk x.1 none, x.2),
            hits := 0, misses := 0, total_requests := 0 }
          z.2 z.1 r none = some
          { max_size := m, ttl_seconds := ttl,
            cache := (Ftl.map fun x => (gk x.1 none, r)) ++ [(gk z.1 none, r)],
            timestamps := (Ftl.map fun x => (gk x.1 none, x.2)) ++ [(gk z.1 none, z.2)],
            hits := 0, misses := 0, total_requests := 0 } := by
        unfold QueryCache.set
        rw [if_pos (by simp only [List.length_cons, List.length_map]; omega)]
        rw [hmin]
        simp only [Option.map_some']
        rw [herase_c, herase_t,
          dictSet_eq_append_of_not_mem _ _ _ (by rw [hmapfstR]; exact hkzFtl),
          dictSet_eq_append_of_not_mem _ _ _ (by rw [hmapfstT]; exact hkzFtl)]
      refine ⟨{ max_size := m, ttl_seconds := ttl,
                cache := (Ftl.map fun x => (gk x.1 none, r)) ++ [(gk z.1 none, r)],
                timestamps := (Ftl.map fun x => (gk x.1 none, x.2)) ++ [(gk z.1 none, z.2)],
                hits := 0, misses := 0, total_requests := 0 }, ?_, ?_⟩
      · simp only [insertSeq]
        rw [hsetz]
      · simp only [List.map_append, List.map_cons, List.map_nil, hmapfstR,
          List.cons_append, List.drop_succ_cons, List.drop_nil, List.drop_zero]

end QueryCache

namespace QueryCache

theorem set_evicts_oldest (gk : String → Option (List String) → String) (c : QueryCache α)
    (now : Nat) (q : String) (r : α) (p : Option (List String))
    (hwf : WF c) (hlen : c.cache.length = c.max_size) (hmax : 1 ≤ c.max_size) :
    ∃ oldest : String × Nat,
      argminTS c.timestamps = some oldest ∧
      oldest ∈ c.timestamps ∧
      (∀ e ∈ c.timestamps, oldest.2 ≤ e.2) ∧
      set gk c now q r p = some
        { c with cache := dictSet (dictErase c.cache oldest.1) (gk q p) r,
                 timestamps := dictSet (dictErase c.timestamps oldest.1) (gk q p) now } := by
  obtain ⟨hkeys, hnd⟩ := hwf
  have hne : ∃ oldest, argminTS c.timestamps = some oldest := by
    cases hts : c.timestamps with
    | nil =>
      exfalso
      rw [hts] at hkeys
      simp only [List.map_nil, List.map_eq_nil_iff] at hkeys
      rw [hkeys] at hlen
      simp only [List.length_nil] at hlen
      omega
    | cons b rest => exact ⟨argminFold b rest, rfl⟩
  obtain ⟨oldest, hmin⟩ := hne
  refine ⟨oldest, hmin, argminTS_mem _ _ hmin, argminTS_min _ _ hmin, ?_⟩
  unfold set
  rw [if_pos (by omega), hmin]
  simp only [Option.map_some']

end QueryCache

/-- Claim C4: the query cache never holds more than `maxSize` entries; when
`set` is called on a full cache, the entry with the oldest insertion
timestamp (first minimum, FIFO by insertion time) is removed before the new
entry is stored; and inserting `maxSize + 1` distinct keys (at strictly
increasing times) into a fresh cache evicts exactly the earliest-inserted
entry, leaving exactly the later `maxSize` keys. -/
theorem C4_cache_bounded_fifo_eviction (α : Type)
    (gk : String → Option (List String) → String) :
    (∀ c : QueryCache α, QueryCache.Reach gk c → c.cache.length ≤ c.max_size) ∧
    (∀ (c : QueryCache α) (now : Nat) (q : String) (r : α) (p : Option (List String)),
      QueryCache.WF c → c.cache.length = c.max_size → 1 ≤ c.max_size →
      ∃ oldest : String × Nat,
        argminTS c.timestamps = some oldest ∧
        oldest ∈ c.timestamps ∧
        (∀ e ∈ c.timestamps, oldest.2 ≤ e.2) ∧
        QueryCache.set gk c now q r p = some
          { c with cache := dictSet (dictErase c.cache oldest.1) (gk q p) r,
                   timestamps := dictSet (dictErase c.timestamps oldest.1) (gk q p) now }) ∧
    (∀ (m ttl : Nat) (r : α) (L : List (String × Nat)),
      1 ≤ m → L.length = m + 1 →
      (L.map fun x => gk x.1 none).Nodup →
      (L.map Prod.snd).Pairwise (· < ·) →
      ∃ c2, QueryCache.insertSeq gk r L (QueryCache.init α m ttl) = some c2 ∧
        c2.cache.map Prod.fst = (L.map fun x => gk x.1 none).drop 1) := by
  refine ⟨fun c h => (QueryCache.reach_wf_bounded gk c h).2,
          fun c now q r p hwf hlen hmax =>
            QueryCache.set_evicts_oldest gk c now q r p hwf hlen hmax,
          fun m ttl r L hm hlen hnd hinc =>
            QueryCache.insert_overflow_evicts_first gk m ttl r hm L hlen hnd hinc⟩

/-- Witness for C4: inserting three distinct keys into a fresh cache of
capacity 2 (at times 0 < 1 < 2) succeeds and leaves exactly the two
later-inserted keys. -/
theorem C4_cache_bounded_fifo_eviction_witness :
    ∃ c2, QueryCache.insertSeq (fun q _ => q) (7 : Nat)
        [("a", 0), ("b", 1), ("c", 2)] (QueryCache.init Nat 2 300) = some c2 ∧
      c2.cache.map Prod.fst =
        (([("a", 0), ("b", 1), ("c", 2)] : List (String × Nat)).map
          fun x => (fun (q : String) (_ : Option (List String)) => q) x.1 none).drop 1 :=
  (C4_cache_bounded_fifo_eviction Nat (fun q _ => q)).2.2 2 300 7
    [("a", 0), ("b", 1), ("c", 2)] (by decide) (by decide) (by decide) (by decide)

/-- Claim C5: a `get` for a key whose entry was inserted at least
`ttlSeconds` earlier behaves as absent (returns nothing and increments the
miss counter, not the hit counter); a `get` for a key not in the cache
returns absent and increments the miss counter; and a `set` followed by a
`get` of the same query within the TTL returns the stored result and
increments the hit counter. -/
theorem C5_cache_ttl_hit_miss (α : Type)
    (gk : String → Option (List String) → String) :
    (∀ (c : QueryCache α) (now : Nat) (q : String) (p : Option (List String)) (r : α) (ts : Nat),
      dictLookup c.cache (gk q p) = some r →
      dictLookup c.timestamps (gk q p) = some ts →
      (ts : Int) + (c.ttl_seconds : Int) ≤ (now : Int) →
      (QueryCache.get gk c now q p).1 = none ∧
      (QueryCache.get gk c now q p).2.misses = c.misses + 1 ∧
      (QueryCache.get gk c now q p).2.hits = c.hits) ∧
    (∀ (c : QueryCache α) (now : Nat) (q : String) (p : Option (List String)),
      dictLookup c.cache (gk q p) = none →
      (QueryCache.get gk c now q p).1 = none ∧
      (QueryCache.get gk c now q p).2.misses = c.misses + 1 ∧
      (QueryCache.get gk c now q p).2.hits = c.hits) ∧
    (∀ (c c2 : QueryCache α) (now now2 : Nat) (q : String) (r : α) (p : Option (List String)),
      QueryCache.set gk c now q r p = some c2 →
      (now2 : Int) - (now : Int) < (c.ttl_seconds : Int) →
      (QueryCache.get gk c2 now2 q p).1 = some r ∧
      (QueryCache.get gk c2 now2 q p).2.hits = c2.hits + 1 ∧
      (QueryCache.get gk c2 now2 q p).2.misses = c2.misses) := by
  refine ⟨?_, ?_, ?_⟩
  · intro c now q p r ts h1 h2 h3
    unfold QueryCache.get
    rw [h1]
    dsimp only
    rw [h2]
    simp only [Option.getD_some]
    rw [if_neg (by omega)]
    exact ⟨rfl, rfl, rfl⟩
  · intro c now q p h1
    unfold QueryCache.get
    rw [h1]
    exact ⟨rfl, rfl, rfl⟩
  · intro c c2 now now2 q r p hs httl
    have hl := QueryCache.set_lookup gk c c2 now q r p hs
    have httleq := (QueryCache.set_counters gk c c2 now q r p hs).2.2.2.2
    unfold QueryCache.get
    rw [hl.1]
    dsimp only
    rw [hl.2]
    simp only [Option.getD_some]
    rw [if_pos (by rw [httleq]; omega)]
    exact ⟨rfl, rfl, rfl⟩

/-- Witness for C5: on a fresh cache, `get` misses. -/
theorem C5_cache_ttl_hit_miss_witness :
    (QueryCache.get (fun q _ => q) (QueryCache.init Nat 2 300) 0 "SELECT 1" none).1 = none ∧
    (QueryCache.get (fun q _ => q) (QueryCache.init Nat 2 300) 0 "SELECT 1" none).2.misses =
      (QueryCache.init Nat 2 300).misses + 1 ∧
    (QueryCache.get (fun q _ => q) (QueryCache.init Nat 2 300) 0 "SELECT 1" none).2.hits =
      (QueryCache.init Nat 2 300).hits :=
  (C5_cache_ttl_hit_miss Nat (fun q _ => q)).2.1
    (QueryCache.init Nat 2 300) 0 "SELECT 1" none rfl

/-- Claim C10: in every reachable cache state, hits + misses equals
total_requests; each `get` increments `total_requests` exactly once and then
exactly one of `hits` or `misses`; `set` and `clear` leave all three
counters unchanged. -/
theorem C10_cache_counter_invariant (α : Type)
    (gk : String → Option (List String) → String) :
    (∀ c : QueryCache α, QueryCache.Reach gk c → c.hits + c.misses = c.total_requests) ∧
    (∀ (c : QueryCache α) (now : Nat) (q : String) (p : Option (List String)),
      (QueryCache.get gk c now q p).2.total_requests = c.total_requests + 1 ∧
      (((QueryCache.get gk c now q p).2.hits = c.hits + 1 ∧
        (QueryCache.get gk c now q p).2.misses = c.misses) ∨
       ((QueryCache.get gk c now q p).2.hits = c.hits ∧
        (QueryCache.get gk c now q p).2.misses = c.misses + 1))) ∧
    (∀ (c c2 : QueryCache α) (now : Nat) (q : String) (r : α) (p : Option (List String)),
      QueryCache.set gk c now q r p = some c2 →
      c2.hits = c.hits ∧ c2.misses = c.misses ∧ c2.total_requests = c.total_requests) ∧
    (∀ c : QueryCache α, c.clear.hits = c.hits ∧ c.clear.misses = c.misses ∧
      c.clear.total_requests = c.total_requests) := by
  refine ⟨QueryCache.reach_counter_sum gk, fun c now q p => QueryCache.get_counters gk c now q p,
          ?_, fun c => ⟨rfl, rfl, rfl⟩⟩
  intro c c2 now q r p hs
  have h := QueryCache.set_counters gk c c2 now q r p hs
  exact ⟨h.1, h.2.1, h.2.2.1⟩

/-- Witness for C10: the counter invariant holds at a concrete reachable
state (the fresh cache). -/
theorem C10_cache_counter_invariant_witness :
    (QueryCache.init Nat 2 300).hits + (QueryCache.init Nat 2 300).misses =
      (QueryCache.init Nat 2 300).total_requests :=
  (C10_cache_counter_invariant Nat (fun q _ => q)).1
    (QueryCache.init Nat 2 300) (QueryCache.Reach.init 2 300)

/-! ## SQL validation (src/api/sql_generator.py, SQLGenerator.validate_sql)

Regular-expression searches are embedded as explicit scanning functions on
character lists; each one is annotated with the pattern it implements. -/

/-- `[a-zA-Z_]`, the first character of the table-name capture group. -/
def isIdentStart (c : Char) : Bool := c.isAlpha || c = '_'

/-- `[a-zA-Z0-9_]`, the following characters of the capture group. -/
def isIdentChar (c : Char) : Bool := c.isAlphanum || c = '_'

/-- Matches the alternation `(?:FROM|JOIN)` case-insensitively at the head of
the list, returning the remainder. -/
def matchFromJoin : List Char → Option (List Char)
  | a :: b :: c :: d :: rest =>
    if (a.toUpper = 'F' && b.toUpper = 'R' && c.toUpper = 'O' && d.toUpper = 'M')
        || (a.toUpper = 'J' && b.toUpper = 'O' && c.toUpper = 'I' && d.toUpper = 'N') then
      some rest
    else none
  | _ => none

/-- Matches `[a-zA-Z_][a-zA-Z0-9_]*` at the head of the list, returning the
captured identifier and the remainder. -/
def tryIdent : List Char → Option (List Char × List Char)
  | [] => none
  | c :: rest =>
    if isIdentStart c then some (c :: rest.takeWhile isIdentChar, rest.dropWhile isIdentChar)
    else none

/-- One attempted match of `(?:FROM|JOIN)\s+([a-zA-Z_][a-zA-Z0-9_]*)` at the
head of the list (case-insensitive): keyword, at least one whitespace
character, then the captured identifier. -/
def tryTableMatch (cs : List Char) : Option (List Char × List Char) :=
  match matchFromJoin cs with
  | none => none
  | some r1 =>
    if (r1.takeWhile isPySpace).isEmpty then none
    else tryIdent (r1.dropWhile isPySpace)

/-- `re.findall` of the table pattern: scan left to right, resuming after
each (non-overlapping) match.  The fuel argument bounds the recursion and is
always instantiated with the length of the scanned list, which suffices
because every step consumes at least one character. -/
def findTableRefs : Nat → List Char → List (List Char)
  | 0, _ => []
  | _ + 1, [] => []
  | fuel + 1, c :: cs =>
    match tryTableMatch (c :: cs) with
    | some (ident, rest) => ident :: findTableRefs fuel rest
    | none => findTableRefs fuel cs

/-- Python `s.replace(pat, rep)` (all non-overlapping occurrences, left to
right; `pat` is never empty where this is used).  Fuel as in
`findTableRefs`. -/
def replaceSubFuel (pat rep : List Char) : Nat → List Char → List Char
  | 0, cs => cs
  | _ + 1, [] => []
  | fuel + 1, c :: cs =>
    if isPrefixL pat (c :: cs) then rep ++ replaceSubFuel pat rep fuel ((c :: cs).drop pat.length)
    else c :: replaceSubFuel pat rep fuel cs

/-- Python `s.replace(pat, rep)` on strings. -/
def pyReplace (s pat rep : String) : String :=
  String.mk (replaceSubFuel pat.data rep.data s.data.length s.data)

/-- `SQLGenerator._extract_table_names` (src/api/sql_generator.py:343-356):
find the identifiers following FROM/JOIN, strip `(NOLOCK)` decorations,
drop empties, and deduplicate preserving first-seen order. -/
def extract_table_names (sql_query : String) : List String :=
  ((findTableRefs sql_query.data.length sql_query.data).map String.mk).foldl
    (fun acc m =>
      let clean := pyStrip (pyReplace m "(NOLOCK)" "")
      if clean ≠ "" ∧ clean ∉ acc then acc ++ [clean] else acc)
    []

/-- `settings.POC_TABLES` (src/api/config.py:52-55): the only tables
available for queries. -/
def POC_TABLES : List String :=
  ["o", "r", "sa", "rr", "ep", "tat", "c", "cti",
   "m", "i", "mc", "mac", "ao", "ar", "asa", "arr", "aep"]

/-- `models.QueryValidation` (src/api/models.py:48-52). -/
structure QueryValidation where
  is_valid : Bool
  errors : List String
  warnings : List String
deriving Repr, DecidableEq

/-- The dangerous-keyword list of `validate_sql` (src/api/sql_generator.py:281). -/
def dangerous_keywords : List String :=
  ["DROP", "DELETE", "UPDATE", "INSERT", "TRUNCATE", "ALTER", "CREATE"]

/-- A single-quote character (for Python `repr` of strings). -/
def apostrophe : String := String.singleton (Char.ofNat 39)

/-- Python `repr` of a string as interpolated into an f-string; the table
names interpolated here only ever contain `[a-zA-Z0-9_]`, so no escaping is
needed. -/
def pyStrRepr (s : String) : String := apostrophe ++ s ++ apostrophe

/-- Python `repr` of a list of strings, as produced by
`f"... {invalid_tables}"`. -/
def pyListRepr (l : List String) : String :=
  "[" ++ joinSep ", " (l.map pyStrRepr) ++ "]"

/-- The error message of the dangerous-keyword check. -/
def dangerMsg (kw : String) : String :=
  "Potentially dangerous operation detected: " ++ kw

/-- Regex `;\s*KW` (case-insensitive): a semicolon, optional whitespace,
then the keyword.  The regex engine's greedy `\s*` with backtracking is
equivalent to skipping the maximal whitespace run, since no keyword starts
with whitespace. -/
def searchSemiKw (kw : List Char) : List Char → Bool
  | [] => false
  | c :: cs => (c = ';' && isPrefixCIL kw (cs.dropWhile isPySpace)) || searchSemiKw kw cs

/-- Helper for `/\*.*\*/`: from this position, is there a closing `*` `/`
with no newline before it (`.` does not match a newline here, as
`re.DOTALL` is not set for the injection patterns)? -/
def closesNoNL : List Char → Bool
  | '*' :: '/' :: _ => true
  | '\n' :: _ => false
  | _ :: cs => closesNoNL cs
  | [] => false

/-- Does `/\*.*\*/` match at the head of the list? -/
def blockCommentAt : List Char → Bool
  | '/' :: '*' :: cs => closesNoNL cs
  | _ => false

/-- `re.search(r'/\*.*\*/', ...)`: scan all start positions. -/
def searchBlockComment : List Char → Bool
  | [] => false
  | c :: cs => blockCommentAt (c :: cs) || searchBlockComment cs

/-- Helper for `KW1.*KW2`: from this position, does `kw` occur
case-insensitively before the next newline? -/
def followedNoNL (kw : List Char) : List Char → Bool
  | [] => isPrefixCIL kw []
  | c :: cs => isPrefixCIL kw (c :: cs) || (!(c = '\n') && followedNoNL kw cs)

/-- Does `UNION.*SELECT` (case-insensitive, `.` not matching newline) match
at the head of the list? -/
def unionSelectAt (cs : List Char) : Bool :=
  isPrefixCIL "UNION".data cs && followedNoNL "SELECT".data (cs.drop 5)

/-- `re.search(r'UNION.*SELECT', ...)`: scan all start positions. -/
def searchUnionSelect : List Char → Bool
  | [] => false
  | c :: cs => unionSelectAt (c :: cs) || searchUnionSelect cs

/-- The injection-pattern loop (src/api/sql_generator.py:320-334).  All
patterns append the same error message and the loop breaks at the first
match, so its observable effect is: one error if any pattern matches. -/
def anyInjectionPattern (q : String) : Bool :=
  searchSemiKw "DROP".data q.data || searchSemiKw "DELETE".data q.data ||
  containsL "--".data q.data || searchBlockComment q.data ||
  searchUnionSelect q.data || containsCIL "xp_cmdshell".data q.data ||
  containsCIL "sp_executesql".data q.data

/-- One step of the dangerous-keyword loop (src/api/sql_generator.py:284-287). -/
def kwStep (su : String) (v : QueryValidation) (kw : String) : QueryValidation :=
  if containsSub su kw then
    { is_valid := false, errors := v.errors ++ [dangerMsg kw], warnings := v.warnings }
  else v

/-- The limit warning message. -/
def limitWarnMsg : String :=
  "Query doesn" ++ apostrophe ++ "t include LIMIT/TOP clause - this could return many rows"

/-- `SQLGenerator.validate_sql` (src/api/sql_generator.py:271-341). -/
def validate_sql (sql_query : String) : QueryValidation :=
  let sql_upper := pyUpper sql_query
  let v1 := dangerous_keywords.foldl (kwStep sql_upper)
    { is_valid := true, errors := [], warnings := [] }
  let v2 := if !(startsWithL (pyUpper (pyStrip sql_query)) "SELECT") then
      { v1 with is_valid := false, errors := v1.errors ++ ["Only SELECT queries are allowed"] }
    else v1
  let v3 := if !(containsSub sql_upper "LIMIT" || containsSub sql_upper "TOP") then
      { v2 with warnings := v2.warnings ++ [limitWarnMsg] }
    else v2
  let invalid_tables := (extract_table_names sql_query).filter (fun t => t ∉ POC_TABLES)
  let v4 := if !invalid_tables.isEmpty then
      { v3 with is_valid := false,
                errors := v3.errors ++ ["Query uses unauthorized tables: " ++ pyListRepr invalid_tables] }
    else v3
  let v5 := if !(containsSub sql_upper "(NOLOCK)") then
      { v4 with warnings := v4.warnings ++ ["Consider adding NOLOCK hints for better performance"] }
    else v4
  let v6 := if containsSub sql_upper "DATE" &&
        !(containsSub sql_query "YYYYMMDD" || containsSub sql_query "BETWEEN" ||
          containsSub sql_query "=") then
      { v5 with warnings := v5.warnings ++
          ["Ensure date formats follow YYYYMMDD pattern (e.g., 20250820)"] }
    else v5
  let v7 := if !(countChar '(' sql_query.data = countChar ')' sql_query.data) then
      { v6 with warnings := v6.warnings ++ ["Unbalanced parentheses detected"] }
    else v6
  if anyInjectionPattern sql_query then
    { v7 with is_valid := false,
              errors := v7.errors ++ ["Potential SQL injection pattern detected"] }
  else v7

/-! ### Decomposition of `validate_sql` into its error and warning sources -/

/-- The dangerous-keyword errors, one per keyword occurring in the
uppercased query, in keyword-list order. -/
def kwErrors (q : String) : List String :=
  (dangerous_keywords.filter fun kw => containsSub (pyUpper q) kw).map dangerMsg

/-- The non-SELECT error. -/
def selectErrors (q : String) : List String :=
  if startsWithL (pyUpper (pyStrip q)) "SELECT" then []
  else ["Only SELECT queries are allowed"]

/-- The tables used by the query that are not in the allow-list. -/
def invalid_tables (q : String) : List String :=
  (extract_table_names q).filter fun t => t ∉ POC_TABLES

/-- The unauthorized-tables error. -/
def tableErrors (q : String) : List String :=
  if (invalid_tables q).isEmpty then []
  else ["Query uses unauthorized tables: " ++ pyListRepr (invalid_tables q)]

/-- The injection-pattern error (at most one, regardless of how many
patterns match). -/
def injectionErrors (q : String) : List String :=
  if anyInjectionPattern q then ["Potential SQL injection pattern detected"] else []

/-- The LIMIT/TOP warning. -/
def limitWarnings (q : String) : List String :=
  if containsSub (pyUpper q) "LIMIT" || containsSub (pyUpper q) "TOP" then []
  else [limitWarnMsg]

/-- The NOLOCK warning. -/
def nolockWarnings (q : String) : List String :=
  if containsSub (pyUpper q) "(NOLOCK)" then []
  else ["Consider adding NOLOCK hints for better performance"]

/-- The date-format warning. -/
def dateWarnings (q : String) : List String :=
  if containsSub (pyUpper q) "DATE" &&
      !(containsSub q "YYYYMMDD" || containsSub q "BETWEEN" || containsSub q "=") then
    ["Ensure date formats follow YYYYMMDD pattern (e.g., 20250820)"]
  else []

/-- The unbalanced-parentheses warning. -/
def parenWarnings (q : String) : List String :=
  if countChar '(' q.data = countChar ')' q.data then []
  else ["Unbalanced parentheses detected"]

theorem kwFold_spec (su : String) : ∀ (l : List String) (v : QueryValidation),
    l.foldl (kwStep su) v =
      { is_valid := v.is_valid && !(l.any fun kw => containsSub su kw),
        errors := v.errors ++ (l.filter fun kw => containsSub su kw).map dangerMsg,
        warnings := v.warnings } := by
  intro l
  induction l with
  | nil => intro v; simp
  | cons kw rest ih =>
    intro v
    by_cases h : containsSub su kw = true
    · simp [kwStep, h, ih]
    · rw [Bool.not_eq_true] at h
      simp [kwStep, h, ih]

set_option maxHeartbeats 1000000 in
theorem validate_sql_errors (q : String) :
    (validate_sql q).errors =
      kwErrors q ++ selectErrors q ++ tableErrors q ++ injectionErrors q := by
  simp only [validate_sql, kwFold_spec]
  cases hsel : startsWithL (pyUpper (pyStrip q)) "SELECT" <;>
  cases htab : ((extract_table_names q).filter (fun t => t ∉ POC_TABLES)).isEmpty <;>
  cases hinj : anyInjectionPattern q <;>
  simp_all [apply_ite QueryValidation.errors, kwErrors, selectErrors,
    tableErrors, injectionErrors, invalid_tables] <;>
  rw [if_neg (by push_neg; exact htab)] <;> simp

set_option maxHeartbeats 1000000 in
theorem validate_sql_is_valid (q : String) :
    (validate_sql q).is_valid =
      (!(dangerous_keywords.any fun kw => containsSub (pyUpper q) kw) &&
       (startsWithL (pyUpper (pyStrip q)) "SELECT" &&
        ((invalid_tables q).isEmpty && !(anyInjectionPattern q)))) := by
  simp only [validate_sql, kwFold_spec]
  cases hsel : startsWithL (pyUpper (pyStrip q)) "SELECT" <;>
  cases htab : ((extract_table_names q).filter (fun t => t ∉ POC_TABLES)).isEmpty <;>
  cases hinj : anyInjectionPattern q <;>
  simp_all [apply_ite QueryValidation.is_valid, invalid_tables]

/-! ### Substring lemmas -/

theorem isPrefixL_append_left (p p2 : List Char) :
    ∀ s, isPrefixL (p ++ p2) s = true → isPrefixL p s = true := by
  induction p with
  | nil => intro s _; rfl
  | cons a as ih =>
    intro s h
    cases s with
    | nil => simp [isPrefixL] at h
    | cons b bs =>
      simp only [List.cons_append, isPrefixL, Bool.and_eq_true] at h ⊢
      exact ⟨h.1, ih bs h.2⟩

theorem isPrefixL_map (f : Char → Char) (p : List Char) :
    ∀ s, isPrefixL p s = true → isPrefixL (p.map f) (s.map f) = true := by
  induction p with
  | nil => intro s _; rfl
  | cons a as ih =>
    intro s h
    cases s with
    | nil => simp [isPrefixL] at h
    | cons b bs =>
      simp only [isPrefixL, Bool.and_eq_true, decide_eq_true_eq, List.map_cons] at h ⊢
      exact ⟨by rw [h.1], ih bs h.2⟩

theorem containsL_append_left (p p2 : List Char) :
    ∀ s, containsL (p ++ p2) s = true → containsL p s = true := by
  intro s
  induction s with
  | nil =>
    intro h
    simp only [containsL, List.isEmpty_eq_true, List.append_eq_nil] at h ⊢
    exact h.1
  | cons c cs ih =>
    intro h
    simp only [containsL, Bool.or_eq_true] at h ⊢
    rcases h with h | h
    · exact Or.inl (isPrefixL_append_left p p2 _ h)
    · exact Or.inr (ih h)

theorem containsL_map (f : Char → Char) (p : List Char) :
    ∀ s, containsL p s = true → containsL (p.map f) (s.map f) = true := by
  intro s
  induction s with
  | nil =>
    intro h
    simp only [containsL, List.isEmpty_eq_true] at h
    simp [containsL, h]
  | cons c cs ih =>
    intro h
    simp only [containsL, Bool.or_eq_true, List.map_cons] at h ⊢
    rcases h with h | h
    · have := isPrefixL_map f p (c :: cs) h
      simp only [List.map_cons] at this
      exact Or.inl this
    · exact Or.inr (ih h)

/-- Containing `DROP TABLE x` implies the uppercased text contains `DROP`. -/
theorem contains_drop_upper (q : String) (h : containsSub q "DROP TABLE x" = true) :
    containsSub (pyUpper q) "DROP" = true := by
  have hsplit : ("DROP TABLE x").data = "DROP".data ++ " TABLE x".data := by decide
  have h1 : containsL ("DROP".data ++ " TABLE x".data) q.data = true := by
    rw [← hsplit]; exact h
  have h2 := containsL_append_left _ _ _ h1
  have h3 := containsL_map pyUpperChar _ _ h2
  have hmap : ("DROP".data.map pyUpperChar) = "DROP".data := by decide
  rw [hmap] at h3
  exact h3

/-- Claim C1: `validate_sql` reports a query valid only if the trimmed text
begins (case-insensitively) with SELECT, no mutating keyword (DROP, DELETE,
UPDATE, INSERT, TRUNCATE, ALTER, CREATE) occurs case-insensitively anywhere
in the text, and every table name extracted after a FROM or JOIN keyword is
in the allow-list; in particular any query containing `DROP TABLE x` is
invalid with an error mentioning DROP, and any query not starting with
SELECT is invalid. -/
theorem C1_validate_sql_select_only (q : String) :
    ((validate_sql q).is_valid = true →
      startsWithL (pyUpper (pyStrip q)) "SELECT" = true ∧
      (∀ kw ∈ dangerous_keywords, containsSub (pyUpper q) kw = false) ∧
      (∀ t ∈ extract_table_names q, t ∈ POC_TABLES)) ∧
    (containsSub q "DROP TABLE x" = true →
      (validate_sql q).is_valid = false ∧
      ∃ e ∈ (validate_sql q).errors, containsSub e "DROP" = true) ∧
    (startsWithL (pyUpper (pyStrip q)) "SELECT" = false →
      (validate_sql q).is_valid = false) := by
  refine ⟨?_, ?_, ?_⟩
  · intro h
    rw [validate_sql_is_valid] at h
    simp only [Bool.and_eq_true, Bool.not_eq_true'] at h
    obtain ⟨hkw, hsel, htab, hinj⟩ := h
    refine ⟨hsel, ?_, ?_⟩
    · intro kw hk
      simpa using (List.any_eq_false.mp hkw) kw hk
    · intro t ht
      have hfil : invalid_tables q = [] := by
        simpa [List.isEmpty_iff] using htab
      have := (List.filter_eq_nil_iff.mp hfil) t ht
      simpa using this
  · intro h
    have hkw := contains_drop_upper q h
    constructor
    · rw [validate_sql_is_valid]
      have hany : (dangerous_keywords.any fun kw => containsSub (pyUpper q) kw) = true :=
        List.any_eq_true.2 ⟨"DROP",
          show "DROP" ∈ dangerous_keywords from List.mem_cons_self _ _, hkw⟩
      simp [hany]
    · refine ⟨dangerMsg "DROP", ?_, by decide⟩
      rw [validate_sql_errors]
      refine List.mem_append_left _ (List.mem_append_left _ (List.mem_append_left _ ?_))
      unfold kwErrors
      exact List.mem_map_of_mem dangerMsg (List.mem_filter.2
        ⟨show "DROP" ∈ dangerous_keywords from List.mem_cons_self _ _, hkw⟩)
  · intro h
    rw [validate_sql_is_valid]
    simp [h]

/-- Witness for C1: the query `DROP TABLE x` is rejected with an error
mentioning DROP. -/
theorem C1_validate_sql_select_only_witness :
    (validate_sql "DROP TABLE x").is_valid = false ∧
    ∃ e ∈ (validate_sql "DROP TABLE x").errors, containsSub e "DROP" = true :=
  (C1_validate_sql_select_only "DROP TABLE x").2.1 (by decide)

/-- Claim C2: `validate_sql` runs every hard-failure check on every input
and accumulates one error per violation — its error list is exactly the
concatenation of the keyword errors, the non-SELECT error, the
unauthorized-tables error and the injection error, so each violated policy
contributes its error regardless of the other checks; the injection scan
contributes at most one error (one error whenever any pattern matches). -/
theorem C2_validate_sql_accumulates (q : String) :
    ((validate_sql q).errors =
      kwErrors q ++ selectErrors q ++ tableErrors q ++ injectionErrors q) ∧
    (∀ kw ∈ dangerous_keywords, containsSub (pyUpper q) kw = true →
      dangerMsg kw ∈ (validate_sql q).errors) ∧
    (startsWithL (pyUpper (pyStrip q)) "SELECT" = false →
      "Only SELECT queries are allowed" ∈ (validate_sql q).errors) ∧
    (invalid_tables q ≠ [] →
      ("Query uses unauthorized tables: " ++ pyListRepr (invalid_tables q)) ∈
        (validate_sql q).errors) ∧
    (anyInjectionPattern q = true →
      injectionErrors q = ["Potential SQL injection pattern detected"]) ∧
    (injectionErrors q).length ≤ 1 := by
  refine ⟨validate_sql_errors q, ?_, ?_, ?_, ?_, ?_⟩
  · intro kw hk hc
    rw [validate_sql_errors]
    refine List.mem_append_left _ (List.mem_append_left _ (List.mem_append_left _ ?_))
    exact List.mem_map_of_mem dangerMsg (List.mem_filter.2 ⟨hk, hc⟩)
  · intro h
    rw [validate_sql_errors]
    refine List.mem_append_left _ (List.mem_append_left _ (List.mem_append_right _ ?_))
    simp [selectErrors, h]
  · intro h
    rw [validate_sql_errors]
    refine List.mem_append_left _ (List.mem_append_right _ ?_)
    rw [tableErrors, if_neg (by simpa [List.isEmpty_iff] using h)]
    exact List.mem_singleton.2 rfl
  · intro h
    simp [injectionErrors, h]
  · unfold injectionErrors
    split <;> simp

/-- Witness for C2: on `DROP TABLE x`, the DROP keyword error is present in
the accumulated error list. -/
theorem C2_validate_sql_accumulates_witness :
    dangerMsg "DROP" ∈ (validate_sql "DROP TABLE x").errors :=
  (C2_validate_sql_accumulates "DROP TABLE x").2.1 "DROP" (by decide) (by decide)

/-! ## Response parsing (src/api/sql_generator.py, _parse_sql_response and
_clean_sql_query)

Each `re.search` is embedded as a scanning function.  The lazy groups
`(.*?)` followed by a lookahead are modelled by `lazyUntil`: the shortest
prefix ending where the lookahead matches.  `$` (without `re.MULTILINE`)
matches at the end of the string, or just before a final newline. -/

/-- The backtick character. -/
def btick : Char := Char.ofNat 96

/-- `(?=$)`: at the end, or just before a terminating newline. -/
def dollarAt : List Char → Bool
  | [] => true
  | [c] => c = '\n'
  | _ => false

/-- The characters before the first occurrence of three backticks, if any. -/
def beforeTripleTick : List Char → Option (List Char)
  | [] => none
  | c :: cs =>
    if isPrefixL [btick, btick, btick] (c :: cs) then some []
    else (beforeTripleTick cs).map (c :: ·)

/-- One attempted match of ```` ```sql\s*(.*?)\s*``` ```` (DOTALL,
case-insensitive) at the head: the group (before stripping) is the segment
between the opening marker and the earliest closing backtick triple. -/
def codeBlockAt (cs : List Char) : Option (List Char) :=
  if isPrefixCIL ([btick, btick, btick] ++ "sql".data) cs then
    beforeTripleTick (cs.drop 6)
  else none

/-- `re.search` for the code-block pattern. -/
def findCodeBlock : List Char → Option (List Char)
  | [] => none
  | c :: cs =>
    match codeBlockAt (c :: cs) with
    | some content => some content
    | none => findCodeBlock cs

/-- The shortest prefix of the list ending at a position where `look`
holds; consumes everything if `look` never holds (which cannot happen for
the lookaheads used here, as they accept the end of the string). -/
def lazyUntil (look : List Char → Bool) : List Char → List Char
  | [] => []
  | c :: cs => if look (c :: cs) then [] else c :: lazyUntil look cs

/-- The lookahead `(?=\n\n|EXPLANATION:|TABLES_USED:|$)` of the labeled SQL
patterns. -/
def sqlLookahead (cs : List Char) : Bool :=
  isPrefixL "\n\n".data cs || isPrefixCIL "EXPLANATION:".data cs ||
  isPrefixCIL "TABLES_USED:".data cs || dollarAt cs

/-- `re.search(LABEL + r'\s*(.*?)(?=LOOKAHEAD)', ...)` with DOTALL and
IGNORECASE: find the leftmost occurrence of the label, skip the maximal
whitespace run (greedy `\s*`; no backtracking is ever needed because the
lookahead accepts the end of the string), then take the lazy group. -/
def searchLabeled (label : List Char) (look : List Char → Bool) : List Char → Option (List Char)
  | [] => none
  | c :: cs =>
    if isPrefixCIL label (c :: cs) then
      some (lazyUntil look (((c :: cs).drop label.length).dropWhile isPySpace))
    else searchLabeled label look cs

/-- The labeled-SQL section loop (src/api/sql_generator.py:171-183): the
three patterns are tried in order and the loop breaks at the first pattern
whose search succeeds, even when the captured group strips to empty. -/
def labeledSql (s : String) : Option String :=
  match searchLabeled "SQL_QUERY:".data sqlLookahead s.data with
  | some g => some (String.mk (stripChars g))
  | none =>
    match searchLabeled "SQL:".data sqlLookahead s.data with
    | some g => some (String.mk (stripChars g))
    | none =>
      match searchLabeled "Query:".data sqlLookahead s.data with
      | some g => some (String.mk (stripChars g))
      | none => none

/-- The prefix of the list up to and including the first semicolon. -/
def upToSemi : List Char → Option (List Char)
  | [] => none
  | c :: cs => if c = ';' then some [c] else (upToSemi cs).map (c :: ·)

/-- One attempted match of `(SELECT\s+.*?;)` (DOTALL, IGNORECASE) at the
head: the keyword, at least one whitespace character (greedy, but `;` is
not whitespace so backtracking cannot help), then everything up to the
first semicolon. -/
def selectStmtAt (cs : List Char) : Option (List Char) :=
  if isPrefixCIL "SELECT".data cs then
    let rest := cs.drop 6
    if (rest.takeWhile isPySpace).isEmpty then none
    else
      match upToSemi (rest.dropWhile isPySpace) with
      | some body => some (cs.take 6 ++ rest.takeWhile isPySpace ++ body)
      | none => none
  else none

/-- `re.search` for the SELECT-statement fallback. -/
def searchSelectStmt : List Char → Option (List Char)
  | [] => none
  | c :: cs =>
    match selectStmtAt (c :: cs) with
    | some g => some g
    | none => searchSelectStmt cs

/-- One match of `re.sub(r'```sql\s*', ...)` at the head: the marker plus
the following whitespace run. -/
def matchTicksSql (cs : List Char) : Option (List Char) :=
  if isPrefixCIL ([btick, btick, btick] ++ "sql".data) cs then
    some ((cs.drop 6).dropWhile isPySpace)
  else none

/-- One match of `re.sub(r'```\s*', ...)` at the head. -/
def matchTicks (cs : List Char) : Option (List Char) :=
  if isPrefixL [btick, btick, btick] cs then
    some ((cs.drop 3).dropWhile isPySpace)
  else none

/-- `re.sub(pat, '', s)`: remove all non-overlapping matches, scanning left
to right.  Fuel as in `findTableRefs`. -/
def removeAll (m : List Char → Option (List Char)) : Nat → List Char → List Char
  | 0, cs => cs
  | _ + 1, [] => []
  | fuel + 1, c :: cs =>
    match m (c :: cs) with
    | some rest => removeAll m fuel rest
    | none => c :: removeAll m fuel cs

/-- `re.sub(r'^(sql|query):\s*', '', s, flags=IGNORECASE)`: anchored at the
start (no MULTILINE), so at most one removal. -/
def stripSqlPrefix (cs : List Char) : List Char :=
  if isPrefixCIL "sql:".data cs then (cs.drop 4).dropWhile isPySpace
  else if isPrefixCIL "query:".data cs then (cs.drop 6).dropWhile isPySpace
  else cs

/-- `re.sub(r'\s+', ' ', line)`: collapse each whitespace run to a single
space. -/
def collapseWs : List Char → List Char
  | [] => []
  | [c] => if isPySpace c then [' '] else [c]
  | c :: d :: cs =>
    if isPySpace c then
      if isPySpace d then collapseWs (d :: cs) else ' ' :: collapseWs (d :: cs)
    else c :: collapseWs (d :: cs)

/-- Does the list end with the given character (Python `s.endswith(ch)`)? -/
def endsWithChar (ch : Char) (cs : List Char) : Bool :=
  match cs.getLast? with
  | some c => c = ch
  | none => false

/-- `SQLGenerator._clean_sql_query` (src/api/sql_generator.py:246-269). -/
def clean_sql_query (sql_query : String) : String :=
  let s1 := removeAll matchTicksSql sql_query.data.length sql_query.data
  let s2 := removeAll matchTicks s1.length s1
  let s3 := stripSqlPrefix s2
  let cleaned_lines :=
    ((splitOnChar '\n' s3).map fun l => collapseWs (stripChars l)).filter
      fun l => !l.isEmpty
  let joined := joinSep " " (cleaned_lines.map String.mk)
  if joined ≠ "" ∧ !endsWithChar ';' joined.data then joined ++ ";" else joined

/-- The SQL-extraction chain of `_parse_sql_response`
(src/api/sql_generator.py:164-196): code block, then labeled sections, then
the SELECT fallback, each tried only while the accumulated value is still
empty; cleaned only when non-empty. -/
def sqlQueryOf (s : String) : String :=
  let q1 := match findCodeBlock s.data with
    | some g => String.mk (stripChars g)
    | none => ""
  let q2 := if q1 = "" then (labeledSql s).getD "" else q1
  let q3 := if q2 = "" then
      match searchSelectStmt s.data with
      | some g => String.mk (stripChars g)
      | none => ""
    else q2
  if q3 = "" then q3 else clean_sql_query q3

/-- The lookahead `(?=TABLES_USED:|$)` of the labeled explanation pattern. -/
def explLookahead (cs : List Char) : Bool :=
  isPrefixCIL "TABLES_USED:".data cs || dollarAt cs

/-- The lookahead `(?=\n\n|TABLES|$)` of the explanation fallbacks. -/
def fbLookahead (cs : List Char) : Bool :=
  isPrefixL "\n\n".data cs || isPrefixCIL "TABLES".data cs || dollarAt cs

/-- Like `searchLabeled` but requiring at least one whitespace character
after the label (`\s+`); positions where the label matches without
following whitespace fail and scanning resumes one character later. -/
def searchLabeledPlus (label : List Char) (look : List Char → Bool) :
    List Char → Option (List Char)
  | [] => none
  | c :: cs =>
    if isPrefixCIL label (c :: cs) then
      if (((c :: cs).drop label.length).takeWhile isPySpace).isEmpty then
        searchLabeledPlus label look cs
      else
        some (lazyUntil look (((c :: cs).drop label.length).dropWhile isPySpace))
    else searchLabeledPlus label look cs

/-- The suffix of the list after the last adjacent newline pair, if any. -/
def lastAdjNL : List Char → Option (List Char)
  | [] => none
  | c :: cs =>
    match lastAdjNL cs with
    | some r => some r
    | none =>
      match c, cs with
      | '\n', '\n' :: rest => some rest
      | _, _ => none

/-- One attempted match of ```` ```\s*\n\n(.*?)(?=\n\n|TABLES|$) ```` at
the head.  The greedy `\s*` with the following literal `\n\n` matches the
last adjacent newline pair inside the maximal whitespace run after the
backticks (backtracking from the longest run), and the group starts right
after that pair. -/
def fb3At (cs : List Char) : Option (List Char) :=
  if isPrefixL [btick, btick, btick] cs then
    let rest := cs.drop 3
    match lastAdjNL (rest.takeWhile isPySpace) with
    | some tailRun => some (lazyUntil fbLookahead (tailRun ++ rest.dropWhile isPySpace))
    | none => none
  else none

/-- `re.search` for the third explanation fallback. -/
def searchFb3 : List Char → Option (List Char)
  | [] => none
  | c :: cs =>
    match fb3At (c :: cs) with
    | some g => some g
    | none => searchFb3 cs

/-- The explanation-extraction chain of `_parse_sql_response`
(src/api/sql_generator.py:198-214 and 226-231), including the markdown
cleanup (`\*+` and backtick runs removed, then stripped) applied to
non-empty results. -/
def explanationOf (s : String) : String :=
  let e := match searchLabeled "EXPLANATION:".data explLookahead s.data with
    | some g => String.mk (stripChars g)
    | none =>
      match searchLabeledPlus "This query".data fbLookahead s.data with
      | some g => String.mk (stripChars g)
      | none =>
        match searchLabeledPlus "The query".data fbLookahead s.data with
        | some g => String.mk (stripChars g)
        | none =>
          match searchFb3 s.data with
          | some g => String.mk (stripChars g)
          | none => ""
  if e = "" then e
  else String.mk (stripChars ((e.data.filter fun c => !(c = '*')).filter fun c => !(c = btick)))

/-- The character class `[a-zA-Z, ]` of the TABLES_USED pattern. -/
def isTClass (c : Char) : Bool := c.isAlpha || c = ',' || c = ' '

/-- The suffix of the list starting at its last space character, if any. -/
def lastSpaceTail : List Char → Option (List Char)
  | [] => none
  | c :: cs =>
    match lastSpaceTail cs with
    | some t => some t
    | none => if c = ' ' then some (c :: cs) else none

/-- The group of `TABLES_USED:\s*([a-zA-Z, ]+)` after the label: the greedy
`\s*` backtracks from the maximal whitespace run to the largest start
position whose character is in the class (whitespace is only in the class
as a plain space), and the group is the maximal class run from there. -/
def tablesGroupAfter (cs : List Char) : Option (List Char) :=
  let run := cs.takeWhile isPySpace
  let after := cs.dropWhile isPySpace
  match after with
  | c :: _ =>
    if isTClass c then some (after.takeWhile isTClass)
    else (lastSpaceTail run).map fun t => (t ++ after).takeWhile isTClass
  | [] => (lastSpaceTail run).map fun t => t.takeWhile isTClass

/-- `re.search(r'TABLES_USED:\s*([a-zA-Z, ]+)', ...)`: scan occurrences of
the label until one admits a group. -/
def searchTables : List Char → Option (List Char)
  | [] => none
  | c :: cs =>
    if isPrefixCIL "TABLES_USED:".data (c :: cs) then
      match tablesGroupAfter ((c :: cs).drop 12) with
      | some g => some g
      | none => searchTables cs
    else searchTables cs

/-- The trimmed comma-separated tokens of the TABLES_USED section
(`tables_text.split(',')`, each token stripped). -/
def tokensOfLabel (s : String) : List String :=
  match searchTables s.data with
  | some g => (splitOnChar ',' (stripChars g)).map fun t => String.mk (stripChars t)
  | none => []

/-- The tables-used extraction from the labeled section
(src/api/sql_generator.py:216-220): keep the trimmed tokens that are
non-empty and shorter than 10 characters. -/
def tablesFromLabel (s : String) : List String :=
  (tokensOfLabel s).filter fun t => t ≠ "" ∧ t.length < 10

/-- The tables-used chain of `_parse_sql_response`
(src/api/sql_generator.py:216-224): the labeled section, falling back to
extracting table names from the (cleaned) SQL when the section yields
nothing and some SQL was found. -/
def tablesUsedOf (s : String) : List String :=
  if tablesFromLabel s = [] ∧ sqlQueryOf s ≠ "" then extract_table_names (sqlQueryOf s)
  else tablesFromLabel s

/-- The result record of `_parse_sql_response`
(src/api/sql_generator.py:239-244). -/
structure SQLParseResult where
  sql_query : String
  explanation : String
  tables_used : List String
  full_response : String
deriving Repr, DecidableEq

/-- `SQLGenerator._parse_sql_response` (src/api/sql_generator.py:155-244). -/
def parse_sql_response (response_text : String) : SQLParseResult :=
  { sql_query := sqlQueryOf response_text,
    explanation := explanationOf response_text,
    tables_used := tablesUsedOf response_text,
    full_response := response_text }

/-- Claim C3: the response parser is total — for arbitrary input it returns
a result carrying all four fields, the raw model text is always preserved
unchanged, and each of the three extracted fields independently defaults to
empty when its whole extraction chain fails (for the tables field: when the
labeled section fails and the SQL fallback yields nothing); in particular
the empty input parses to all-empty fields. -/
theorem C3_parser_total (s : String) :
    (parse_sql_response s).full_response = s ∧
    (findCodeBlock s.data = none → labeledSql s = none → searchSelectStmt s.data = none →
      (parse_sql_response s).sql_query = "") ∧
    (searchLabeled "EXPLANATION:".data explLookahead s.data = none →
      searchLabeledPlus "This query".data fbLookahead s.data = none →
      searchLabeledPlus "The query".data fbLookahead s.data = none →
      searchFb3 s.data = none →
      (parse_sql_response s).explanation = "") ∧
    (searchTables s.data = none →
      extract_table_names ((parse_sql_response s).sql_query) = [] →
      (parse_sql_response s).tables_used = []) ∧
    parse_sql_response "" =
      { sql_query := "", explanation := "", tables_used := [], full_response := "" } := by
  refine ⟨rfl, ?_, ?_, ?_, by decide⟩
  · intro h1 h2 h3
    show sqlQueryOf s = ""
    simp [sqlQueryOf, h1, h2, h3]
  · intro h1 h2 h3 h4
    show explanationOf s = ""
    simp [explanationOf, h1, h2, h3, h4]
  · intro h1 h2
    show tablesUsedOf s = []
    have hlbl : tablesFromLabel s = [] := by
      simp [tablesFromLabel, tokensOfLabel, h1]
    by_cases hsql : sqlQueryOf s = ""
    · simp [tablesUsedOf, hlbl, hsql]
    · have h2x : extract_table_names (sqlQueryOf s) = [] := h2
      simp [tablesUsedOf, hlbl, hsql, h2x]

/-- Witness for C3: the empty input yields an empty SQL field. -/
theorem C3_parser_total_witness : (parse_sql_response "").sql_query = "" :=
  (C3_parser_total "").2.1 rfl rfl rfl

/-- Claim C9: parsing the worked example yields exactly the expected SQL
text, explanation and tables list, with the raw text preserved. -/
theorem C9_parse_worked_example :
    parse_sql_response
        "SQL_QUERY:\nSELECT * FROM o;\n\nEXPLANATION:\nLists orders\n\nTABLES_USED:\no" =
      { sql_query := "SELECT * FROM o;",
        explanation := "Lists orders",
        tables_used := ["o"],
        full_response :=
          "SQL_QUERY:\nSELECT * FROM o;\n\nEXPLANATION:\nLists orders\n\nTABLES_USED:\no" } := by
  decide

/-- Counterexample for C6 as stated: on `TABLES_USED: abcdefghij`, the
section has the single trimmed token `abcdefghij` of length exactly 10 —
"at most 10" by the claim — yet the extraction drops it (the code keeps
only tokens with `len < 10`). -/
theorem C6_tables_used_counterexample :
    tokensOfLabel "TABLES_USED: abcdefghij" = ["abcdefghij"] ∧
    ("abcdefghij" : String).length = 10 ∧
    tablesFromLabel "TABLES_USED: abcdefghij" = [] ∧
    "abcdefghij" ∉ tablesFromLabel "TABLES_USED: abcdefghij" := by
  decide

/-- Claim C6 (amended): the TABLES_USED section is parsed as a
comma-separated list of trimmed tokens, and exactly the non-empty tokens of
length strictly less than 10 are kept: every such token appears in the
result, and every token of length 10 or more (or empty) is discarded. -/
theorem C6_tables_used_extraction (s : String) :
    tablesFromLabel s = (tokensOfLabel s).filter (fun t => t ≠ "" ∧ t.length < 10) ∧
    (∀ t ∈ tokensOfLabel s, t ≠ "" → t.length < 10 → t ∈ tablesFromLabel s) ∧
    (∀ t ∈ tablesFromLabel s, t ≠ "" ∧ t.length < 10) := by
  refine ⟨rfl, ?_, ?_⟩
  · intro t ht hne hlen
    exact List.mem_filter.2 ⟨ht, by simp [hne, hlen]⟩
  · intro t ht
    have := (List.mem_filter.1 ht).2
    simpa using this

/-- Witness for C6 (amended): the token `o` is kept. -/
theorem C6_tables_used_extraction_witness :
    "o" ∈ tablesFromLabel "TABLES_USED: o" :=
  (C6_tables_used_extraction "TABLES_USED: o").2.1 "o" (by decide) (by decide) (by decide)

/-! ## Schema document builder (src/api/schema_processor.py,
_process_table_schema_with_examples and helpers)

Table JSON files and catalog entries are modelled as records of optional
fields (a missing JSON key is `none`); dict-valued fields are
insertion-ordered association lists, and JSON values interpolated into
f-strings are modelled as strings.  The document is built as an ordered
list of tagged sections whose concatenation
(`process_table_schema_with_examples`) is the built text; each `+=` block
of the Python code is one section. -/

/-- One element of a table's `examples` list. -/
structure QueryExample where
  query : String
  description : String
  parameters : List (String × String)
deriving Repr, DecidableEq

/-- A table JSON file (the keys used by the processor). `joins` values are
either a list of conditions or a single value. -/
structure TableData where
  display_name : Option String
  «alias» : Option String
  description : Option String
  fields : Option (List (String × String))
  joins : Option (List (String × (List String ⊕ String)))
  indexes : Option (List (String × String))
  examples : Option (List QueryExample)
deriving Repr, DecidableEq

/-- A catalog-index entry (the keys used by the processor). -/
structure CatalogInfo where
  description : Option String
  business_purpose : Option String
  data_source : Option String
  update_frequency : Option String
  owner : Option String
  usage_notes : Option String
  created_date : Option String
  last_modified : Option String
  record_count : Option String
  data_quality : Option String
  compliance_notes : Option String
deriving Repr, DecidableEq

/-- `SchemaProcessor._extract_sql_patterns` (src/api/schema_processor.py:190-213). -/
def extract_sql_patterns (query : String) : List String :=
  let qu := pyUpper query
  (if containsSub qu "JOIN" then ["JOINS"] else []) ++
  (if containsSub qu "NOLOCK" then ["NOLOCK_HINTS"] else []) ++
  (if containsSub qu "ORDER BY" then ["SORTING"] else []) ++
  (if containsSub qu "BETWEEN" then ["DATE_RANGES"] else []) ++
  (if containsSub qu "AND" && containsSub qu "OR" then ["COMPLEX_CONDITIONS"] else []) ++
  (if ["=", "<>", ">", "<", ">=", "<="].any (fun op => containsSub qu op) then ["FILTERING"] else []) ++
  (if containsSub qu "GROUP BY" then ["AGGREGATION"] else []) ++
  (if ["COUNT", "SUM", "AVG", "MAX", "MIN"].any (fun f => containsSub qu f) then ["FUNCTIONS"] else [])

/-- Append an element to a set-modelled-as-list if not already present.
Python `set` iteration order is unspecified; sets are modelled in
first-insertion order. -/
def addIfNew (x : String) (l : List String) : List String :=
  if x ∈ l then l else l ++ [x]

/-- The words following a `JOIN` word (`words[i+1]` for each `i` with
`words[i] == 'JOIN'` and `i+1 < len(words)`). -/
def joinSuccessors : List (List Char) → List (List Char)
  | [] => []
  | [_] => []
  | w1 :: w2 :: rest =>
    (if w1 = "JOIN".data then [w2] else []) ++ joinSuccessors (w2 :: rest)

/-- The `filter_desc` mapping with its `get(f, f)` default
(src/api/schema_processor.py:258-265). -/
def filterDesc (f : String) : String :=
  if f = "date_filtering" then "Date-based queries"
  else if f = "test_code_filtering" then "Test code filtering"
  else if f = "order_number_filtering" then "Order-based queries"
  else if f = "result_status_filtering" then "Result status filtering"
  else f

/-- One iteration of the example loop of `_generate_usage_summary`,
carrying (join_tables, common_filters, summary). -/
def usageStep (acc : List String × List String × List String) (ex : QueryExample) :
    List String × List String × List String :=
  let query := pyUpper ex.query
  let dl := pyLower ex.description
  let jt := if containsSub query "JOIN" then
      (joinSuccessors (pySplitWs query.data)).foldl
        (fun l w => addIfNew (pyStrip (pyReplace (String.mk w) "(NOLOCK)" "")) l) acc.1
    else acc.1
  let cf1 := if containsSub query "ARDATE" then addIfNew "date_filtering" acc.2.1 else acc.2.1
  let cf2 := if containsSub query "ARTEST" then addIfNew "test_code_filtering" cf1 else cf1
  let cf3 := if containsSub query "ARORDNO" then addIfNew "order_number_filtering" cf2 else cf2
  let cf4 := if containsSub query "ARRESSTAT" then addIfNew "result_status_filtering" cf3 else cf3
  let sm1 := if containsSub dl "patient" then acc.2.2 ++ ["- Patient-specific queries"] else acc.2.2
  let sm2 := if containsSub dl "date" then sm1 ++ ["- Date-based filtering"] else sm1
  let sm3 := if containsSub dl "test" then sm2 ++ ["- Test result retrieval"] else sm2
  (jt, cf4, sm3)

/-- `SchemaProcessor._generate_usage_summary` (src/api/schema_processor.py:215-268). -/
def generate_usage_summary (examples : List QueryExample) : String :=
  let st := examples.foldl usageStep ([], [], [])
  let summary := st.2.2 ++
    (if st.1 ≠ [] then ["- Commonly joined with: " ++ joinSep ", " st.1] else []) ++
    (if st.2.1 ≠ [] then ["- Common filters: " ++ joinSep ", " (st.2.1.map filterDesc)] else [])
  if summary ≠ [] then joinSep "\n" summary else "- General data retrieval queries"

/-- `SchemaProcessor._process_business_context`
(src/api/schema_processor.py:308-320); the field labels are the Python
results of `field.replace('_', ' ').title()`. -/
def process_business_context (ci : CatalogInfo) : String :=
  pyStrip (
    (match ci.business_purpose with | some v => "- Business Purpose: " ++ v ++ "\n" | none => "") ++
    (match ci.data_source with | some v => "- Data Source: " ++ v ++ "\n" | none => "") ++
    (match ci.update_frequency with | some v => "- Update Frequency: " ++ v ++ "\n" | none => "") ++
    (match ci.owner with | some v => "- Owner: " ++ v ++ "\n" | none => "") ++
    (match ci.usage_notes with | some v => "- Usage Notes: " ++ v ++ "\n" | none => ""))

/-- `SchemaProcessor._process_metadata` (src/api/schema_processor.py:322-332). -/
def process_metadata (ci : CatalogInfo) : String :=
  pyStrip (
    (match ci.created_date with | some v => "- Created Date: " ++ v ++ "\n" | none => "") ++
    (match ci.last_modified with | some v => "- Last Modified: " ++ v ++ "\n" | none => "") ++
    (match ci.record_count with | some v => "- Record Count: " ++ v ++ "\n" | none => "") ++
    (match ci.data_quality with | some v => "- Data Quality: " ++ v ++ "\n" | none => "") ++
    (match ci.compliance_notes with | some v => "- Compliance Notes: " ++ v ++ "\n" | none => ""))

/-- `n` copies of a character (Python `"=" * 40` etc.). -/
def repeatChar (c : Char) (n : Nat) : String := String.mk (List.replicate n c)

/-- One worked example's block (src/api/schema_processor.py:169-188),
numbered from 1. -/
def exampleBlock (i : Nat) (ex : QueryExample) : String :=
  "\nExample " ++ toString i ++ ": " ++ ex.description ++ "\n" ++
  "SQL Pattern:\n" ++ ex.query ++ "\n" ++
  (if ex.parameters ≠ [] then
      "Parameters:\n" ++ String.join (ex.parameters.map fun p => "  - " ++ p.1 ++ ": " ++ p.2 ++ "\n")
    else "") ++
  (if extract_sql_patterns ex.query ≠ [] then
      "SQL Techniques Used: " ++ joinSep ", " (extract_sql_patterns ex.query) ++ "\n"
    else "") ++
  repeatChar '-' 30 ++ "\n"

/-- The examples blocks, numbered from `i` (`enumerate(examples, 1)`). -/
def numberedExamples : Nat → List QueryExample → String
  | _, [] => ""
  | i, ex :: rest => exampleBlock i ex ++ numberedExamples (i + 1) rest

/-- One join entry's lines: one line per condition when the value is a
list, a single line otherwise. -/
def joinLines (jt : String) : (List String ⊕ String) → String
  | Sum.inl conds => String.join (conds.map fun c => "- JOIN " ++ jt ++ ": " ++ c ++ "\n")
  | Sum.inr v => "- JOIN " ++ jt ++ ": " ++ v ++ "\n"

/-- The tags of the document's sections, in the order the code emits
them. -/
inductive SectionTag
  | header | displayName | aliasName | descriptionSec | additionalInfo | fieldsSec
  | joinsSec | indexesSec | examplesSec | businessSec | metadataSec | usageSec
deriving Repr, DecidableEq

/-- The sections of the schema document, in emission order
(src/api/schema_processor.py:106-188): each conditional `schema_text +=`
block of the source is one entry. -/
def schemaSections (table_data : TableData) (table_name : String)
    (catalog_info : CatalogInfo) : List (SectionTag × String) :=
  [(SectionTag.header, "Table: " ++ table_name ++ "\n")] ++
  (match table_data.display_name with
    | some d => [(SectionTag.displayName, "Display Name: " ++ d ++ "\n")]
    | none => []) ++
  (match table_data.«alias» with
    | some a => [(SectionTag.aliasName, "Alias: " ++ a ++ "\n")]
    | none => []) ++
  (match table_data.description with
    | some d => [(SectionTag.descriptionSec, "Description: " ++ d ++ "\n")]
    | none => []) ++
  (match catalog_info.description with
    | some cd =>
      if table_data.description ≠ some cd then
        [(SectionTag.additionalInfo, "Additional Info: " ++ cd ++ "\n")]
      else []
    | none => []) ++
  (match table_data.fields with
    | some fs =>
      [(SectionTag.fieldsSec, "\nFields/Columns:\n" ++
        String.join (fs.map fun f => "- " ++ f.1 ++ ": " ++ f.2 ++ "\n"))]
    | none => []) ++
  (match table_data.joins with
    | some js =>
      [(SectionTag.joinsSec, "\nTable Relationships/Joins:\n" ++
        String.join (js.map fun j => joinLines j.1 j.2))]
    | none => []) ++
  (match table_data.indexes with
    | some ix =>
      [(SectionTag.indexesSec, "\nDatabase Indexes:\n" ++
        String.join (ix.map fun p => "- " ++ p.1 ++ ": " ++ p.2 ++ "\n"))]
    | none => []) ++
  (match table_data.examples with
    | some es =>
      if es ≠ [] then
        [(SectionTag.examplesSec, "\nSQL Query Examples and Patterns:\n" ++
          repeatChar '=' 40 ++ "\n" ++ numberedExamples 1 es)]
      else []
    | none => []) ++
  (if process_business_context catalog_info ≠ "" then
      [(SectionTag.businessSec, "\nBusiness Context:\n" ++
        process_business_context catalog_info ++ "\n")]
    else []) ++
  (if process_metadata catalog_info ≠ "" then
      [(SectionTag.metadataSec, "\nMetadata:\n" ++ process_metadata catalog_info ++ "\n")]
    else []) ++
  (match table_data.examples with
    | some es =>
      if es ≠ [] then
        [(SectionTag.usageSec, "\nCommon Usage Patterns:\n" ++
          generate_usage_summary es ++ "\n")]
      else []
    | none => [])

/-- `SchemaProcessor._process_table_schema_with_examples`: the built
document text is the concatenation of the sections in emission order. -/
def process_table_schema_with_examples (table_data : TableData) (table_name : String)
    (catalog_info : CatalogInfo) : String :=
  String.join ((schemaSections table_data table_name catalog_info).map Prod.snd)

/-! ### Section-order and missing-section theorems -/

/-- Index (from `i`) of the first occurrence of `pat` as a substring. -/
def posOfAux (pat : List Char) : List Char → Nat → Option Nat
  | [], i => if pat.isEmpty then some i else none
  | c :: cs, i => if isPrefixL pat (c :: cs) then some i else posOfAux pat cs (i + 1)

/-- Character index of the first occurrence of `pat` in `s`, if any. -/
def posOfSub (s pat : String) : Option Nat := posOfAux pat.data s.data 0

/-- Does the catalog entry contribute an `Additional Info` line? -/
def hasAddInfo (table_data : TableData) (catalog_info : CatalogInfo) : Bool :=
  match catalog_info.description with
  | some cd => table_data.description ≠ some cd
  | none => false

/-- Does the table have a non-empty examples list? -/
def hasExamples (table_data : TableData) : Bool :=
  match table_data.examples with
  | some es => !es.isEmpty
  | none => false

/-- The canonical emission order of the section tags. -/
def sectionOrder : List SectionTag :=
  [SectionTag.header, SectionTag.displayName, SectionTag.aliasName,
   SectionTag.descriptionSec, SectionTag.additionalInfo, SectionTag.fieldsSec,
   SectionTag.joinsSec, SectionTag.indexesSec, SectionTag.examplesSec,
   SectionTag.businessSec, SectionTag.metadataSec, SectionTag.usageSec]

theorem map_fst_if {c : Prop} [Decidable c] (t : SectionTag) (txt : String) :
    ((if c then [(t, txt)] else []).map Prod.fst) = (if c then [t] else []) := by
  split <;> rfl

/-- The tag list of the generated sections, as conditions on the input. -/
theorem schemaSections_tags (td : TableData) (name : String) (ci : CatalogInfo) :
    (schemaSections td name ci).map Prod.fst =
      [SectionTag.header] ++
      (if td.display_name.isSome then [SectionTag.displayName] else []) ++
      (if td.«alias».isSome then [SectionTag.aliasName] else []) ++
      (if td.description.isSome then [SectionTag.descriptionSec] else []) ++
      (if hasAddInfo td ci then [SectionTag.additionalInfo] else []) ++
      (if td.fields.isSome then [SectionTag.fieldsSec] else []) ++
      (if td.joins.isSome then [SectionTag.joinsSec] else []) ++
      (if td.indexes.isSome then [SectionTag.indexesSec] else []) ++
      (if hasExamples td then [SectionTag.examplesSec] else []) ++
      (if process_business_context ci ≠ "" then [SectionTag.businessSec] else []) ++
      (if process_metadata ci ≠ "" then [SectionTag.metadataSec] else []) ++
      (if hasExamples td then [SectionTag.usageSec] else []) := by
  have e2 : (match td.display_name with
      | some d => [(SectionTag.displayName, "Display Name: " ++ d ++ "\n")]
      | none => ([] : List (SectionTag × String))).map Prod.fst =
      (if td.display_name.isSome then [SectionTag.displayName] else []) := by
    cases td.display_name <;> simp
  have e3 : (match td.«alias» with
      | some a => [(SectionTag.aliasName, "Alias: " ++ a ++ "\n")]
      | none => ([] : List (SectionTag × String))).map Prod.fst =
      (if td.«alias».isSome then [SectionTag.aliasName] else []) := by
    cases td.«alias» <;> simp
  have e4 : (match td.description with
      | some d => [(SectionTag.descriptionSec, "Description: " ++ d ++ "\n")]
      | none => ([] : List (SectionTag × String))).map Prod.fst =
      (if td.description.isSome then [SectionTag.descriptionSec] else []) := by
    cases td.description <;> simp
  have e5 : (match ci.description with
      | some cd =>
        if td.description ≠ some cd then
          [(SectionTag.additionalInfo, "Additional Info: " ++ cd ++ "\n")]
        else []
      | none => ([] : List (SectionTag × String))).map Prod.fst =
      (if hasAddInfo td ci then [SectionTag.additionalInfo] else []) := by
    cases hd : ci.description with
    | none => simp [hasAddInfo, hd]
    | some cd =>
      by_cases h : td.description = some cd <;> simp [hasAddInfo, hd, h]
  have e6 : (match td.fields with
      | some fs =>
        [(SectionTag.fieldsSec, "\nFields/Columns:\n" ++
          String.join (fs.map fun (f : String × String) => "- " ++ f.1 ++ ": " ++ f.2 ++ "\n"))]
      | none => ([] : List (SectionTag × String))).map Prod.fst =
      (if td.fields.isSome then [SectionTag.fieldsSec] else []) := by
    cases td.fields <;> simp
  have e7 : (match td.joins with
      | some js =>
        [(SectionTag.joinsSec, "\nTable Relationships/Joins:\n" ++
          String.join (js.map fun (j : String × (List String ⊕ String)) => joinLines j.1 j.2))]
      | none => ([] : List (SectionTag × String))).map Prod.fst =
      (if td.joins.isSome then [SectionTag.joinsSec] else []) := by
    cases td.joins <;> simp
  have e8 : (match td.indexes with
      | some ix =>
        [(SectionTag.indexesSec, "\nDatabase Indexes:\n" ++
          String.join (ix.map fun (p : String × String) => "- " ++ p.1 ++ ": " ++ p.2 ++ "\n"))]
      | none => ([] : List (SectionTag × String))).map Prod.fst =
      (if td.indexes.isSome then [SectionTag.indexesSec] else []) := by
    cases td.indexes <;> simp
  have e9 : (match td.examples with
      | some es =>
        if es ≠ [] then
          [(SectionTag.examplesSec, "\nSQL Query Examples and Patterns:\n" ++
            repeatChar '=' 40 ++ "\n" ++ numberedExamples 1 es)]
        else []
      | none => ([] : List (SectionTag × String))).map Prod.fst =
      (if hasExamples td then [SectionTag.examplesSec] else []) := by
    cases he : td.examples with
    | none => simp [hasExamples, he]
    | some es => by_cases h : es = [] <;> simp [hasExamples, he, h]
  have e12 : (match td.examples with
      | some es =>
        if es ≠ [] then
          [(SectionTag.usageSec, "\nCommon Usage Patterns:\n" ++
            generate_usage_summary es ++ "\n")]
        else []
      | none => ([] : List (SectionTag × String))).map Prod.fst =
      (if hasExamples td then [SectionTag.usageSec] else []) := by
    cases he : td.examples with
    | none => simp [hasExamples, he]
    | some es => by_cases h : es = [] <;> simp [hasExamples, he, h]
  simp only [schemaSections, List.map_append, e2, e3, e4, e5, e6, e7, e8, e9, e12,
    map_fst_if, List.map_cons, List.map_nil]

theorem mem_ite_singleton {c : Prop} [Decidable c] {t t2 : SectionTag} :
    (t ∈ (if c then [t2] else ([] : List SectionTag))) ↔ (c ∧ t = t2) := by
  split <;> simp_all

/-- Claim C8: when an optional field (description, joins, indexes,
examples) is missing from the table input, the built document has no
section for it — the section list carries no entry with that tag, so the
rendered text (the concatenation of the sections) contains neither the
section header nor an empty stub for it; a missing examples list also
suppresses the derived usage-patterns section. -/
theorem C8_missing_optional_sections (td : TableData) (name : String) (ci : CatalogInfo) :
    (process_table_schema_with_examples td name ci =
      String.join ((schemaSections td name ci).map Prod.snd)) ∧
    (td.description = none →
      SectionTag.descriptionSec ∉ (schemaSections td name ci).map Prod.fst) ∧
    (td.joins = none →
      SectionTag.joinsSec ∉ (schemaSections td name ci).map Prod.fst) ∧
    (td.indexes = none →
      SectionTag.indexesSec ∉ (schemaSections td name ci).map Prod.fst) ∧
    (td.examples = none →
      SectionTag.examplesSec ∉ (schemaSections td name ci).map Prod.fst ∧
      SectionTag.usageSec ∉ (schemaSections td name ci).map Prod.fst) := by
  rw [schemaSections_tags]
  refine ⟨rfl, ?_, ?_, ?_, ?_⟩
  · intro h
    simp [h, mem_ite_singleton]
  · intro h
    simp [h, mem_ite_singleton]
  · intro h
    simp [h, mem_ite_singleton]
  · intro h
    constructor <;> simp [h, hasExamples, mem_ite_singleton]

/-- An input table with every optional field missing. -/
def emptyTable : TableData :=
  { display_name := none, «alias» := none, description := none, fields := none,
    joins := none, indexes := none, examples := none }

/-- An input catalog entry with every field missing. -/
def emptyCatalog : CatalogInfo :=
  { description := none, business_purpose := none, data_source := none,
    update_frequency := none, owner := none, usage_notes := none,
    created_date := none, last_modified := none, record_count := none,
    data_quality := none, compliance_notes := none }

/-- Witness for C8: omitting `joins` yields a document with no joins
section. -/
theorem C8_missing_optional_sections_witness :
    SectionTag.joinsSec ∉ (schemaSections emptyTable "o" emptyCatalog).map Prod.fst :=
  (C8_missing_optional_sections emptyTable "o" emptyCatalog).2.2.1 rfl

/-- Concrete inputs for the section-order counterexample: one worked
example, a business-context field and a metadata field. -/
def cxTable7 : TableData :=
  { display_name := none, «alias» := none, description := none, fields := none,
    joins := none, indexes := none,
    examples := some [{ query := "SELECT 1", description := "simple", parameters := [] }] }

/-- Catalog entry for the section-order counterexample. -/
def cxCatalog7 : CatalogInfo :=
  { description := none, business_purpose := some "research", data_source := none,
    update_frequency := none, owner := none, usage_notes := none,
    created_date := some "20240101", last_modified := none, record_count := none,
    data_quality := none, compliance_notes := none }

set_option maxRecDepth 20000 in
/-- Counterexample for C7 as stated: in the built document for `cxTable7`,
the common-usage-patterns summary appears AFTER the business-context block
and after the metadata block, not before the business-context block as the
claim requires. -/
theorem C7_section_order_counterexample :
    (posOfSub (process_table_schema_with_examples cxTable7 "o" cxCatalog7)
        "\nBusiness Context:\n").isSome = true ∧
    (posOfSub (process_table_schema_with_examples cxTable7 "o" cxCatalog7)
        "\nMetadata:\n").isSome = true ∧
    (posOfSub (process_table_schema_with_examples cxTable7 "o" cxCatalog7)
        "\nCommon Usage Patterns:\n").isSome = true ∧
    ((posOfSub (process_table_schema_with_examples cxTable7 "o" cxCatalog7)
        "\nBusiness Context:\n").getD 0 <
      (posOfSub (process_table_schema_with_examples cxTable7 "o" cxCatalog7)
        "\nCommon Usage Patterns:\n").getD 0) ∧
    ((posOfSub (process_table_schema_with_examples cxTable7 "o" cxCatalog7)
        "\nMetadata:\n").getD 0 <
      (posOfSub (process_table_schema_with_examples cxTable7 "o" cxCatalog7)
        "\nCommon Usage Patterns:\n").getD 0) := by
  decide

/-- Claim C7 (amended): the sections of the built document appear in a
fixed order — header, display name, alias, description, additional info,
fields, joins, indexes, worked-examples block, business-context block,
metadata block, and the derived common-usage-patterns summary LAST (after
the metadata block, not before the business-context block); the document
text is their concatenation in that order. -/
theorem C7_schema_section_order (td : TableData) (name : String) (ci : CatalogInfo) :
    ((schemaSections td name ci).map Prod.fst).Sublist sectionOrder ∧
    process_table_schema_with_examples td name ci =
      String.join ((schemaSections td name ci).map Prod.snd) := by
  refine ⟨?_, rfl⟩
  rw [schemaSections_tags]
  show List.Sublist _ ([SectionTag.header] ++ [SectionTag.displayName] ++ [SectionTag.aliasName] ++
    [SectionTag.descriptionSec] ++ [SectionTag.additionalInfo] ++ [SectionTag.fieldsSec] ++
    [SectionTag.joinsSec] ++ [SectionTag.indexesSec] ++ [SectionTag.examplesSec] ++
    [SectionTag.businessSec] ++ [SectionTag.metadataSec] ++ [SectionTag.usageSec])
  have hpiece : ∀ (c : Prop) [Decidable c] (t : SectionTag),
      (if c then [t] else []).Sublist [t] := by
    intro c _ t; split <;> simp
  exact (((((((((((List.Sublist.refl _).append (hpiece _ _)).append (hpiece _ _)).append
    (hpiece _ _)).append (hpiece _ _)).append (hpiece _ _)).append (hpiece _ _)).append
    (hpiece _ _)).append (hpiece _ _)).append (hpiece _ _)).append (hpiece _ _)).append
    (hpiece _ _)
